import Mathlib

/-!
Verification development for the real-time stream subscription and fan-out
engine of the crypto_bot repository (`src/services/websocket/stream_manager.py`,
`src/services/websocket/binance_websocket.py`, `src/utils/validators.py`,
`src/config/binance_config.py`).

Python dictionaries are modelled as association lists with first-match lookup,
Python sets of ints / strings as duplicate-free-by-construction lists, float
prices as rationals, and timestamps as naturals supplied explicitly.
-/

namespace CryptoBot

/-! ### Dictionaries (model of Python `dict`) -/

/-- Lookup of the first entry with the given key (Python `d[k]` / `d.get(k)`). -/
def dlookup {α : Type} [DecidableEq α] {β : Type} (k : α) : List (α × β) → Option β
  | [] => none
  | (a, b) :: rest => if a = k then some b else dlookup k rest

/-- Replace the value at a key, or append the binding (Python `d[k] = v`). -/
def dinsert {α : Type} [DecidableEq α] {β : Type} (k : α) (v : β) : List (α × β) → List (α × β)
  | [] => [(k, v)]
  | (a, b) :: rest => if a = k then (k, v) :: rest else (a, b) :: dinsert k v rest

/-- Remove every entry with the given key (Python `del d[k]`). -/
def derase {α : Type} [DecidableEq α] {β : Type} (k : α) (l : List (α × β)) : List (α × β) :=
  l.filter (fun e => e.1 ≠ k)

/-! ### Python string helpers -/

/-- Python `str.lower()` (ASCII range, as exercised by the subsystem). -/
def pyLower (s : String) : String := ⟨s.data.map Char.toLower⟩

/-- Python `str.upper()` (ASCII range, as exercised by the subsystem). -/
def pyUpper (s : String) : String := ⟨s.data.map Char.toUpper⟩

/-- Python `str.strip()`: remove leading and trailing whitespace. -/
def pyStrip (s : String) : String :=
  ⟨((s.data.dropWhile Char.isWhitespace).reverse.dropWhile Char.isWhitespace).reverse⟩

/-- Substring containment on character lists (Python `needle in hay`). -/
def containsSubL (needle : List Char) : List Char → Bool
  | [] => needle.isEmpty
  | c :: rest => needle.isPrefixOf (c :: rest) || containsSubL needle rest

/-- Python `needle in hay` for strings. -/
def pyContains (hay needle : String) : Bool := containsSubL needle.data hay.data

/-- Python `s.startswith(p)`. -/
def pyStartsWith (s p : String) : Bool := p.data.isPrefixOf s.data

/-- Python `s.endswith(p)`. -/
def pyEndsWith (s p : String) : Bool := p.data.isSuffixOf s.data

/-- Python `s.isalnum()`: non-empty and all characters alphanumeric. -/
def pyIsAlnum (s : String) : Bool := !s.data.isEmpty && s.data.all Char.isAlphanum

/-- Split at the first occurrence of a separator, on character lists. The
result is (part before, part after); when the separator does not occur the
whole input is the first component. -/
def splitFirstL (sep : Char) : List Char → List Char × List Char
  | [] => ([], [])
  | c :: rest =>
    if c = sep then ([], rest)
    else
      let p := splitFirstL sep rest
      (c :: p.1, p.2)

/-- Python `s.split(sep, 1)` restricted to inputs containing the separator:
returns the two fragments around the first occurrence. -/
def pySplit1 (s : String) (sep : Char) : String × String :=
  let p := splitFirstL sep s.data
  (⟨p.1⟩, ⟨p.2⟩)

/-- Python slicing `s[n:]` (by characters, as Python indexes strings). -/
def pyDrop (s : String) (n : ℕ) : String := ⟨s.data.drop n⟩

/-- Python `len(s)` (in characters). -/
def pyLen (s : String) : ℕ := s.data.length

/-! ### Configuration (`src/config/binance_config.py`, defaults) -/

/-- `BinanceConfig` reconnection and heartbeat fields with their defaults
(`src/config/binance_config.py` lines 33-42). Delays are rationals because
`backoff_multiplier` is a float in the source. -/
structure BinanceConfig where
  ping_interval : ℕ := 20
  ping_timeout : ℕ := 10
  max_reconnect_attempts : ℕ := 5
  reconnect_delay : ℚ := 5
  backoff_multiplier : ℚ := 2
  max_reconnect_delay : ℚ := 300
deriving Repr, DecidableEq

/-- The global default configuration instance (`binance_config`). -/
def binance_config : BinanceConfig := {}

/-- `BINANCE_TIMEFRAMES` from `src/utils/constants.py`. -/
def BINANCE_TIMEFRAMES : List String :=
  ["1m", "3m", "5m", "15m", "30m",
   "1h", "2h", "4h", "6h", "8h", "12h",
   "1d", "3d", "1w", "1M"]

/-- `QUOTE_ASSETS` from `src/utils/constants.py`. -/
def QUOTE_ASSETS : List String := ["USDT", "BTC", "ETH", "BNB", "BUSD", "USDC"]

/-- `MIN_SYMBOL_LENGTH` from `src/utils/constants.py`. -/
def MIN_SYMBOL_LENGTH : ℕ := 6

/-- `MAX_SYMBOL_LENGTH` from `src/utils/constants.py`. -/
def MAX_SYMBOL_LENGTH : ℕ := 12

/-! ### Stream names (`src/services/websocket/stream_manager.py` lines 23-104) -/

/-- `get_kline_stream_name`: `f"{symbol.lower()}@kline_{timeframe}"`. -/
def get_kline_stream_name (symbol timeframe : String) : String :=
  pyLower symbol ++ "@kline_" ++ timeframe

/-- `get_ticker_stream_name`: `f"{symbol.lower()}@ticker"`. -/
def get_ticker_stream_name (symbol : String) : String :=
  pyLower symbol ++ "@ticker"

/-- `get_depth_stream_name`: `f"{symbol.lower()}@depth{level}"`. -/
def get_depth_stream_name (symbol : String) (level : String := "5") : String :=
  pyLower symbol ++ "@depth" ++ level

/-- Result dictionary of `parse_stream_name`, with optional keys as options. -/
structure ParsedStream where
  valid : Bool
  type : Option String := none
  symbol : Option String := none
  timeframe : Option String := none
  level : Option String := none
deriving Repr, DecidableEq

/-- `parse_stream_name` (`stream_manager.py` lines 61-104): split at the first
`@`, uppercase the symbol part, and classify by the stream-type part. -/
def parse_stream_name (stream_name : String) : ParsedStream :=
  if ¬ pyContains stream_name "@" then { valid := false }
  else
    let p := pySplit1 stream_name '@'
    let symbol := pyUpper p.1
    let stream_type := p.2
    if pyStartsWith stream_type "kline_" then
      { valid := true, type := some "kline", symbol := some symbol,
        timeframe := some (pyDrop stream_type 6) }
    else if stream_type = "ticker" then
      { valid := true, type := some "ticker", symbol := some symbol }
    else if pyStartsWith stream_type "depth" then
      { valid := true, type := some "depth", symbol := some symbol,
        level := some (if 5 < pyLen stream_type then pyDrop stream_type 5 else "5") }
    else { valid := false }

/-! ### Validators (`src/utils/validators.py`) -/

/-- The kline payload dictionary `data.k`, with one optional field per
required key of `validate_binance_kline_data_detailed`, in the source's
`required_fields` order. Prices and volumes are rationals (the source parses
the string fields with `float`), timestamps and the trade count are
integers. A `none` field models an absent key. -/
structure KlineData where
  t : Option ℤ := none
  T : Option ℤ := none
  s : Option String := none
  i : Option String := none
  o : Option ℚ := none
  c : Option ℚ := none
  h : Option ℚ := none
  l : Option ℚ := none
  v : Option ℚ := none
  q : Option ℚ := none
  n : Option ℤ := none
  V : Option ℚ := none
  Q : Option ℚ := none
  x : Option Bool := none
deriving Repr, DecidableEq

/-- The `{}` default used by `data.get("k", {})`. -/
def emptyKline : KlineData := {}

/-- `validate_binance_kline_data_detailed` (`validators.py` lines 14-120):
presence of every required field (the source's loop over `required_fields`,
rejecting at the first absent key), then the timestamp, price, volume, trade
count and symbol/interval checks, in source order. -/
def validate_binance_kline_data_detailed (k : KlineData) : Bool × String :=
  match k.t with
  | none => (false, "Missing required field: t")
  | some t =>
  match k.T with
  | none => (false, "Missing required field: T")
  | some T =>
  match k.s with
  | none => (false, "Missing required field: s")
  | some s =>
  match k.i with
  | none => (false, "Missing required field: i")
  | some i =>
  match k.o with
  | none => (false, "Missing required field: o")
  | some o =>
  match k.c with
  | none => (false, "Missing required field: c")
  | some c =>
  match k.h with
  | none => (false, "Missing required field: h")
  | some h =>
  match k.l with
  | none => (false, "Missing required field: l")
  | some l =>
  match k.v with
  | none => (false, "Missing required field: v")
  | some v =>
  match k.q with
  | none => (false, "Missing required field: q")
  | some q =>
  match k.n with
  | none => (false, "Missing required field: n")
  | some n =>
  match k.V with
  | none => (false, "Missing required field: V")
  | some V =>
  match k.Q with
  | none => (false, "Missing required field: Q")
  | some Q =>
  match k.x with
  | none => (false, "Missing required field: x")
  | some _x =>
    if t ≤ 0 ∨ T ≤ 0 then (false, "Invalid timestamp values")
    else if T ≤ t then (false, "Open time must be less than close time")
    else if o ≤ 0 ∨ c ≤ 0 ∨ h ≤ 0 ∨ l ≤ 0 then (false, "Prices must be positive")
    else if h < max o c then (false, "High price inconsistency")
    else if min o c < l then (false, "Low price inconsistency")
    else if v < 0 ∨ q < 0 ∨ V < 0 ∨ Q < 0 then (false, "Volumes cannot be negative")
    else if v < V then (false, "Taker buy volume cannot exceed total volume")
    else if n < 0 then (false, "Trades count cannot be negative")
    else if pyStrip s = "" ∨ (pyStrip s).length < 4 then (false, "Invalid symbol")
    else if pyStrip i = "" then (false, "Invalid interval")
    else (true, "Valid kline data")

/-- `validate_binance_kline_data`: the boolean projection. -/
def validate_binance_kline_data (k : KlineData) : Bool :=
  (validate_binance_kline_data_detailed k).1

/-- Quote-asset scan of `validate_trading_pair_symbol` (`validators.py`
lines 164-174): first quote asset the symbol ends with, requiring a base
asset of at least two characters; no match fails. Returns `none` on
success. -/
def checkQuoteAssets (symbol : String) : List String → Option String
  | [] => some "unknown quote asset"
  | quote :: rest =>
    if pyEndsWith symbol quote then
      if symbol.length - quote.length < 2 then some "base asset too short"
      else none
    else checkQuoteAssets symbol rest

/-- `validate_trading_pair_symbol` (`validators.py` lines 137-176): uppercase
and strip, then length bounds, alphanumeric check and quote-asset scan. The
Russian error texts of the source are abbreviated to English tags. -/
def validate_trading_pair_symbol (symbol : String) : Bool × Option String :=
  if symbol = "" then (false, some "symbol must be a non-empty string")
  else
    let symbol := pyStrip (pyUpper symbol)
    if symbol.length < MIN_SYMBOL_LENGTH then (false, some "symbol too short")
    else if MAX_SYMBOL_LENGTH < symbol.length then (false, some "symbol too long")
    else if ¬ pyIsAlnum symbol then (false, some "symbol must be alphanumeric")
    else
      match checkQuoteAssets symbol QUOTE_ASSETS with
      | some e => (false, some e)
      | none => (true, none)

/-- `validate_timeframe` (`validators.py` lines 179-197): lowercase and
strip, then membership in `BINANCE_TIMEFRAMES`. -/
def validate_timeframe (timeframe : String) : Bool × Option String :=
  if timeframe = "" then (false, some "timeframe must be a non-empty string")
  else
    let timeframe := pyStrip (pyLower timeframe)
    if timeframe ∈ BINANCE_TIMEFRAMES then (true, none)
    else (false, some "unsupported timeframe")

/-! ### Sets as duplicate-free lists (model of Python `set`) -/

/-- Python `set.add`: insert if absent. -/
def setAdd {α : Type} [DecidableEq α] (l : List α) (a : α) : List α :=
  if a ∈ l then l else l ++ [a]

/-- Python `set.discard`: remove all occurrences, no error when absent. -/
def setDiscard {α : Type} [DecidableEq α] (l : List α) (a : α) : List α :=
  l.filter (· ≠ a)

/-! ### `StreamSubscription` (`stream_manager.py` lines 106-156) -/

/-- One active stream subscription: symbol (uppercased), timeframe
(lowercased), the set of subscribed users and the per-stream statistics. -/
structure StreamSubscription where
  symbol : String
  timeframe : String
  users : List ℤ
  stream_name : String
  created_at : ℕ
  last_data_time : Option ℕ := none
  message_count : ℕ := 0
deriving Repr, DecidableEq

/-- `StreamSubscription.__init__`: uppercase the symbol, lowercase the
timeframe, derive the stream name, start the counters. -/
def StreamSubscription.make (symbol timeframe : String) (users : List ℤ) (now : ℕ) :
    StreamSubscription :=
  { symbol := pyUpper symbol
    timeframe := pyLower timeframe
    users := users
    stream_name := get_kline_stream_name (pyUpper symbol) (pyLower timeframe)
    created_at := now }

/-- `StreamSubscription.add_user`: `self.users.add(user_id)`. -/
def StreamSubscription.add_user (sub : StreamSubscription) (user_id : ℤ) : StreamSubscription :=
  { sub with users := setAdd sub.users user_id }

/-- `StreamSubscription.remove_user`: `self.users.discard(user_id)`, returning
whether the subscription became empty. -/
def StreamSubscription.remove_user (sub : StreamSubscription) (user_id : ℤ) :
    StreamSubscription × Bool :=
  let users := setDiscard sub.users user_id
  ({ sub with users := users }, users.isEmpty)

/-- `StreamSubscription.update_stats`: bump `message_count`, refresh
`last_data_time`. -/
def StreamSubscription.update_stats (sub : StreamSubscription) (now : ℕ) : StreamSubscription :=
  { sub with last_data_time := some now, message_count := sub.message_count + 1 }

/-! ### `StreamManager` registry state (`stream_manager.py` lines 159-197) -/

/-- The mutable registry fields of `StreamManager`: the subscription map
(stream name to subscription), the reverse user index (`defaultdict(set)`),
and the aggregate counters. `has_data_processor` records whether the optional
`data_processor` callback was supplied. -/
structure ManagerState where
  subscriptions : List (String × StreamSubscription) := []
  user_streams : List (ℤ × List String) := []
  total_messages_processed : ℕ := 0
  total_subscriptions_created : ℕ := 0
  total_subscriptions_removed : ℕ := 0
  has_data_processor : Bool := false
deriving Repr, DecidableEq

/-- `self.user_streams[user_id].add(stream_name)` — a `defaultdict(set)`
access that creates the entry when absent. -/
def usAdd (us : List (ℤ × List String)) (user_id : ℤ) (stream_name : String) :
    List (ℤ × List String) :=
  match dlookup user_id us with
  | some l => dinsert user_id (setAdd l stream_name) us
  | none => dinsert user_id [stream_name] us

/-- `self.user_streams[user_id].discard(stream_name)` — also a `defaultdict`
access, so an absent user gains an empty entry. -/
def usDiscard (us : List (ℤ × List String)) (user_id : ℤ) (stream_name : String) :
    List (ℤ × List String) :=
  match dlookup user_id us with
  | some l => dinsert user_id (setDiscard l stream_name) us
  | none => dinsert user_id [] us

/-! ### Registry part of the consumer-facing operations -/

/-- Accumulator of the per-timeframe loop in `subscribe_user_to_pair`
(`stream_manager.py` lines 283-334). -/
structure SubLoopState where
  mgr : ManagerState
  streams_to_subscribe : List String := []
  results : List (String × Bool) := []
deriving Repr, DecidableEq

/-- Body of the per-timeframe loop of `subscribe_user_to_pair`: validate the
timeframe, then either join the existing subscription or create a new one
(collecting its stream for the batched upstream SUBSCRIBE), and index the
stream under the user. -/
def subscribeStep (user_id : ℤ) (symbol : String) (now : ℕ) (st : SubLoopState)
    (timeframe : String) : SubLoopState :=
  if ¬ (validate_timeframe timeframe).1 then
    { st with results := dinsert timeframe false st.results }
  else
    let stream_name := get_kline_stream_name symbol timeframe
    match dlookup stream_name st.mgr.subscriptions with
    | some sub =>
      let mgr := { st.mgr with
        subscriptions := dinsert stream_name (sub.add_user user_id) st.mgr.subscriptions }
      { mgr := { mgr with user_streams := usAdd mgr.user_streams user_id stream_name }
        streams_to_subscribe := st.streams_to_subscribe
        results := dinsert timeframe true st.results }
    | none =>
      let sub := StreamSubscription.make symbol timeframe [user_id] now
      let mgr := { st.mgr with
        subscriptions := dinsert stream_name sub st.mgr.subscriptions
        total_subscriptions_created := st.mgr.total_subscriptions_created + 1 }
      { mgr := { mgr with user_streams := usAdd mgr.user_streams user_id stream_name }
        streams_to_subscribe := st.streams_to_subscribe ++ [stream_name]
        results := dinsert timeframe true st.results }

/-- Registry part of `subscribe_user_to_pair` (lines 264-334): symbol
validation short-circuits with an all-`false` result map; otherwise the
per-timeframe loop runs over the registry. -/
def subscribe_user_to_pair_registry (mgr : ManagerState) (user_id : ℤ) (symbol : String)
    (timeframes : List String) (now : ℕ) : SubLoopState :=
  if ¬ (validate_trading_pair_symbol symbol).1 then
    { mgr := mgr
      results := timeframes.foldl (fun r tf => dinsert tf false r) [] }
  else
    timeframes.foldl (subscribeStep user_id symbol now) { mgr := mgr }

/-- Accumulator of the per-timeframe loop in `unsubscribe_user_from_pair`
(`stream_manager.py` lines 406-445). -/
structure UnsubLoopState where
  mgr : ManagerState
  streams_to_unsubscribe : List String := []
  results : List (String × Bool) := []
deriving Repr, DecidableEq

/-- Body of the per-timeframe loop of `unsubscribe_user_from_pair`: remove
the user from the subscription and from the user index; delete the
subscription when it became empty, collecting its stream for the upstream
UNSUBSCRIBE. Every processed timeframe reports `True`. -/
def unsubscribeStep (user_id : ℤ) (symbol : String) (st : UnsubLoopState)
    (timeframe : String) : UnsubLoopState :=
  let stream_name := get_kline_stream_name symbol timeframe
  match dlookup stream_name st.mgr.subscriptions with
  | some sub =>
    let r := sub.remove_user user_id
    let mgr := { st.mgr with
      subscriptions := dinsert stream_name r.1 st.mgr.subscriptions }
    let mgr := { mgr with user_streams := usDiscard mgr.user_streams user_id stream_name }
    if r.2 then
      { mgr := { mgr with
          subscriptions := derase stream_name mgr.subscriptions
          total_subscriptions_removed := mgr.total_subscriptions_removed + 1 }
        streams_to_unsubscribe := st.streams_to_unsubscribe ++ [stream_name]
        results := dinsert timeframe true st.results }
    else
      { mgr := mgr
        streams_to_unsubscribe := st.streams_to_unsubscribe
        results := dinsert timeframe true st.results }
  | none => { st with results := dinsert timeframe true st.results }

/-- Final cleanup of `unsubscribe_user_from_pair` (lines 464-466): drop the
user's index entry when it became empty. -/
def cleanupUserStreams (mgr : ManagerState) (user_id : ℤ) : ManagerState :=
  match dlookup user_id mgr.user_streams with
  | some [] => { mgr with user_streams := derase user_id mgr.user_streams }
  | _ => mgr

/-- Registry part of `unsubscribe_user_from_pair`: the per-timeframe loop
followed by the empty-entry cleanup. -/
def unsubscribe_user_from_pair_registry (mgr : ManagerState) (user_id : ℤ) (symbol : String)
    (timeframes : List String) : UnsubLoopState :=
  let r := timeframes.foldl (unsubscribeStep user_id symbol) { mgr := mgr }
  { r with mgr := cleanupUserStreams r.mgr user_id }

/-- Body of the stream loop of `unsubscribe_user_from_all` (lines 502-513):
remove the user from one subscription, deleting it when it became empty. The
user index is not touched here (the whole entry is deleted after the loop). -/
def unsubAllStep (user_id : ℤ) (st : ManagerState × List String) (stream_name : String) :
    ManagerState × List String :=
  match dlookup stream_name st.1.subscriptions with
  | some sub =>
    let r := sub.remove_user user_id
    if r.2 then
      ({ st.1 with
          subscriptions := derase stream_name st.1.subscriptions
          total_subscriptions_removed := st.1.total_subscriptions_removed + 1 },
        st.2 ++ [stream_name])
    else
      ({ st.1 with subscriptions := dinsert stream_name r.1 st.1.subscriptions }, st.2)
  | none => st

/-- Registry part of `unsubscribe_user_from_all` (lines 488-516): no-op for an
unknown user, otherwise process each of the user's streams and delete the
user's index entry. Also returns the streams whose subscription became
empty. -/
def unsubscribe_user_from_all_registry (mgr : ManagerState) (user_id : ℤ) :
    ManagerState × List String :=
  match dlookup user_id mgr.user_streams with
  | none => (mgr, [])
  | some user_stream_names =>
    let r := user_stream_names.foldl (unsubAllStep user_id) (mgr, [])
    ({ r.1 with user_streams := derase user_id r.1.user_streams }, r.2)

/-! ### WebSocket client state (`binance_websocket.py`) -/

/-- `ConnectionState` enum (`binance_websocket.py` lines 31-37). -/
inductive ConnectionState where
  | disconnected
  | connecting
  | connected
  | reconnecting
  | closed
deriving Repr, DecidableEq

/-- String value of a `ConnectionState` (the enum's `.value`). -/
def ConnectionState.value : ConnectionState → String
  | .disconnected => "disconnected"
  | .connecting => "connecting"
  | .connected => "connected"
  | .reconnecting => "reconnecting"
  | .closed => "closed"

/-- The mutable fields of `BinanceWebSocketClient` (lines 61-98). -/
structure ClientState where
  state : ConnectionState := .disconnected
  connection_id : Option String := none
  subscribed_streams : List String := []
  pending_subscriptions : List String := []
  reconnect_attempts : ℕ := 0
  last_ping_time : ℕ := 0
  last_pong_time : ℕ := 0
  messages_received : ℕ := 0
  messages_sent : ℕ := 0
  connection_start_time : Option ℕ := none
  last_message_time : Option ℕ := none
deriving Repr, DecidableEq

/-- An upstream control command sent over the socket (the `params` of the
`SUBSCRIBE`/`UNSUBSCRIBE` JSON frames; the `id` field is wall-clock derived
and tracked separately by the serialization layer). -/
inductive UpMsg where
  | subscribe (params : List String)
  | unsubscribe (params : List String)
deriving Repr, DecidableEq

/-- `subscribe_to_multiple_streams` (`binance_websocket.py` lines 267-313):
empty input returns an empty map; when not connected the names are merely
recorded for resubscription; otherwise one batched SUBSCRIBE is sent and all
names are recorded. A send failure is caught internally and reported as an
all-`False` map — it is never re-raised. `sendOk` models whether the
transport write succeeds. -/
def subscribe_to_multiple_streams (cli : ClientState) (stream_names : List String)
    (sendOk : Bool) : ClientState × List UpMsg × List (String × Bool) :=
  if stream_names.isEmpty then (cli, [], [])
  else if cli.state ≠ ConnectionState.connected then
    ({ cli with subscribed_streams := stream_names.foldl setAdd cli.subscribed_streams },
      [], stream_names.foldl (fun r s => dinsert s true r) [])
  else if sendOk then
    ({ cli with
        messages_sent := cli.messages_sent + 1
        subscribed_streams := stream_names.foldl setAdd cli.subscribed_streams
        pending_subscriptions := stream_names.foldl setAdd cli.pending_subscriptions },
      [UpMsg.subscribe stream_names],
      stream_names.foldl (fun r s => dinsert s true r) [])
  else
    (cli, [], stream_names.foldl (fun r s => dinsert s false r) [])

/-- `unsubscribe_from_stream` (lines 225-265): no-op for an unknown stream;
otherwise the stream leaves both local sets and, when connected, one
UNSUBSCRIBE frame is sent. A send failure only yields `false`. -/
def unsubscribe_from_stream (cli : ClientState) (stream_name : String) (sendOk : Bool) :
    ClientState × List UpMsg × Bool :=
  if stream_name ∉ cli.subscribed_streams then (cli, [], true)
  else
    let cli := { cli with
      subscribed_streams := setDiscard cli.subscribed_streams stream_name
      pending_subscriptions := setDiscard cli.pending_subscriptions stream_name }
    if cli.state ≠ ConnectionState.connected then (cli, [], true)
    else if sendOk then
      ({ cli with messages_sent := cli.messages_sent + 1 },
        [UpMsg.unsubscribe [stream_name]], true)
    else (cli, [], false)

/-! ### Full consumer-facing operations (manager + client) -/

/-- Combined manager/client state of a started `StreamManager`. -/
structure SysState where
  mgr : ManagerState := {}
  cli : ClientState := {}
deriving Repr, DecidableEq

/-- `subscribe_user_to_pair` (`stream_manager.py` lines 247-374): the registry
loop, then one batched upstream SUBSCRIBE for the newly created streams. The
manager ignores the client's result map, and its rollback `except` branch
cannot fire because `subscribe_to_multiple_streams` never raises. -/
def subscribe_user_to_pair (sys : SysState) (user_id : ℤ) (symbol : String)
    (timeframes : List String) (now : ℕ) (sendOk : Bool) :
    SysState × List UpMsg × List (String × Bool) :=
  let r := subscribe_user_to_pair_registry sys.mgr user_id symbol timeframes now
  if r.streams_to_subscribe.isEmpty then
    ({ sys with mgr := r.mgr }, [], r.results)
  else
    let c := subscribe_to_multiple_streams sys.cli r.streams_to_subscribe sendOk
    ({ mgr := r.mgr, cli := c.1 }, c.2.1, r.results)

/-- The rollback branch of `subscribe_user_to_pair` (lines 351-364), translated
for reference: it removes the user from each newly created subscription,
deletes those that became empty, drops the user's index entries and flips the
affected timeframes to `False`. No reachable execution path runs it (see
`subscribe_user_to_pair`), because the only awaited call it guards catches
its own exceptions. -/
def subscribeRollback (mgr : ManagerState) (user_id : ℤ) (symbol : String)
    (timeframes : List String) (streams_to_subscribe : List String)
    (results : List (String × Bool)) : ManagerState × List (String × Bool) :=
  streams_to_subscribe.foldl
    (fun acc stream_name =>
      match dlookup stream_name acc.1.subscriptions with
      | some sub =>
        let r := sub.remove_user user_id
        let mgr := { acc.1 with
          subscriptions :=
            if r.1.users.isEmpty then derase stream_name acc.1.subscriptions
            else dinsert stream_name r.1 acc.1.subscriptions }
        let mgr := { mgr with user_streams := usDiscard mgr.user_streams user_id stream_name }
        (mgr,
          timeframes.foldl
            (fun res tf =>
              if get_kline_stream_name symbol tf = stream_name then dinsert tf false res
              else res)
            acc.2)
      | none => acc)
    (mgr, results)

/-- `unsubscribe_user_from_pair` (lines 376-476): the registry loop, then one
UNSUBSCRIBE frame per stream that became empty, then the index cleanup. -/
def unsubscribe_user_from_pair (sys : SysState) (user_id : ℤ) (symbol : String)
    (timeframes : List String) (sendOk : Bool) :
    SysState × List UpMsg × List (String × Bool) :=
  let r := unsubscribe_user_from_pair_registry sys.mgr user_id symbol timeframes
  let c := r.streams_to_unsubscribe.foldl
    (fun (acc : ClientState × List UpMsg) s =>
      let u := unsubscribe_from_stream acc.1 s sendOk
      (u.1, acc.2 ++ u.2.1))
    (sys.cli, [])
  ({ mgr := r.mgr, cli := c.1 }, c.2, r.results)

/-- `unsubscribe_user_from_all` (lines 478-537): the registry sweep over the
user's streams, then one UNSUBSCRIBE frame per stream that became empty. -/
def unsubscribe_user_from_all (sys : SysState) (user_id : ℤ) (sendOk : Bool) :
    SysState × List UpMsg × Bool :=
  let r := unsubscribe_user_from_all_registry sys.mgr user_id
  let c := r.2.foldl
    (fun (acc : ClientState × List UpMsg) s =>
      let u := unsubscribe_from_stream acc.1 s sendOk
      (u.1, acc.2 ++ u.2.1))
    (sys.cli, [])
  ({ mgr := r.1, cli := c.1 }, c.2, true)

/-! ### Registry invariant and operation sequences (C3) -/

/-- `c` is registered under stream `n` in a subscription map. -/
def subMemL (subs : List (String × StreamSubscription)) (c : ℤ) (n : String) : Prop :=
  ∃ sub, dlookup n subs = some sub ∧ c ∈ sub.users

/-- Stream `n` is in consumer `c`'s reverse index. -/
def usMemL (us : List (ℤ × List String)) (c : ℤ) (n : String) : Prop :=
  ∃ l, dlookup c us = some l ∧ n ∈ l

/-- The registry/consumer-index agreement invariant of the spec: every stored
subscription has a non-empty user set, and a consumer is in a subscription's
user set exactly when that stream is in the consumer's index. -/
def RegistryInv (mgr : ManagerState) : Prop :=
  (∀ n sub, dlookup n mgr.subscriptions = some sub → sub.users ≠ []) ∧
  (∀ c n, subMemL mgr.subscriptions c n ↔ usMemL mgr.user_streams c n)

/-- One consumer-facing registry operation. -/
inductive RegistryOp where
  | subscribePair (user_id : ℤ) (symbol : String) (timeframes : List String) (now : ℕ)
  | unsubscribePair (user_id : ℤ) (symbol : String) (timeframes : List String)
  | unsubscribeAll (user_id : ℤ)
deriving Repr, DecidableEq

/-- The registry effect of one operation. -/
def applyRegistryOp (mgr : ManagerState) : RegistryOp → ManagerState
  | RegistryOp.subscribePair u sym tfs now =>
    (subscribe_user_to_pair_registry mgr u sym tfs now).mgr
  | RegistryOp.unsubscribePair u sym tfs =>
    (unsubscribe_user_from_pair_registry mgr u sym tfs).mgr
  | RegistryOp.unsubscribeAll u => (unsubscribe_user_from_all_registry mgr u).1

/-- Run a sequence of operations from a starting registry state. -/
def runRegistryOps (mgr : ManagerState) (ops : List RegistryOp) : ManagerState :=
  ops.foldl applyRegistryOp mgr

/-- Effect of `remove_user`-then-delete-if-empty on one lookup result; used
to characterize the `unsubscribe_user_from_all` sweep. -/
def removeUserLookup (u : ℤ) : Option StreamSubscription → Option StreamSubscription
  | none => none
  | some sub =>
    if (setDiscard sub.users u).isEmpty then none
    else some { sub with users := setDiscard sub.users u }

/-! ### Inbound message pipeline (`binance_websocket.py` lines 409-480,
`stream_manager.py` lines 648-765) -/

/-- The candle dictionary assembled by `_handle_kline_message`
(`stream_manager.py` lines 743-751). -/
structure CandleData where
  open_time : ℤ
  close_time : ℤ
  open_price : ℚ
  high_price : ℚ
  low_price : ℚ
  close_price : ℚ
  volume : ℚ
deriving Repr, DecidableEq

/-- Calls to external collaborators made while processing one inbound
message: the signal pipeline for a closed candle
(`_process_closed_candle`), the candle cache for an open candle
(`_update_current_candle`), and the optional extra `data_processor`. -/
inductive ProcEvent where
  | closedCandle (symbol timeframe : String) (candle : CandleData)
  | currentCandle (symbol timeframe : String) (candle : CandleData)
  | dataProcessorCall
deriving Repr, DecidableEq

/-- Whether an event is the closed-candle signal-pipeline call. -/
def ProcEvent.isClosedCandle : ProcEvent → Bool
  | .closedCandle _ _ _ => true
  | _ => false

/-- The `data` member of a combined-stream frame; only its `k` key is read by
this subsystem. -/
structure StreamData where
  k : Option KlineData := none
deriving Repr, DecidableEq

/-- A combined-stream frame `{"stream": ..., "data": {...}}` after JSON
parsing; an absent `stream` key is `none`. -/
structure StreamMessage where
  stream : Option String := none
  data : StreamData := {}
deriving Repr, DecidableEq

/-- `_handle_kline_message` (`stream_manager.py` lines 696-765): extract the
kline payload, require symbol and timeframe, require an active subscription
with users, then route the assembled candle to the signal pipeline (closed
candle) or the cache (open candle). All failures return with no call. -/
def handle_kline_message (mgr : ManagerState) (m : StreamMessage) : List ProcEvent :=
  let stream_name := m.stream.getD ""
  match m.data.k with
  | none => []
  | some kd =>
    match kd.s, kd.i with
    | some symbol, some timeframe =>
      if symbol = "" ∨ timeframe = "" then []
      else
        let is_closed := kd.x.getD false
        match dlookup stream_name mgr.subscriptions with
        | none => []
        | some sub =>
          if sub.users.isEmpty then []
          else
            let candle : CandleData :=
              ⟨kd.t.getD 0, kd.T.getD 0, kd.o.getD 0, kd.h.getD 0, kd.l.getD 0,
                kd.c.getD 0, kd.v.getD 0⟩
            if is_closed then [ProcEvent.closedCandle symbol timeframe candle]
            else [ProcEvent.currentCandle symbol timeframe candle]
    | _, _ => []

/-- `_handle_websocket_message` (`stream_manager.py` lines 648-694): update
the stream's statistics and the message counter, then dispatch kline frames
to `_handle_kline_message` and finally to the optional `data_processor`. -/
def handle_websocket_message (mgr : ManagerState) (now : ℕ) (m : StreamMessage) :
    ManagerState × List ProcEvent :=
  match m.stream with
  | none => (mgr, [])
  | some stream_name =>
    if stream_name = "" then (mgr, [])
    else
      let mgr := match dlookup stream_name mgr.subscriptions with
        | some sub =>
          { mgr with subscriptions := dinsert stream_name (sub.update_stats now) mgr.subscriptions }
        | none => mgr
      let mgr := { mgr with total_messages_processed := mgr.total_messages_processed + 1 }
      let info := parse_stream_name stream_name
      let evs := if info.valid ∧ info.type = some "kline" then handle_kline_message mgr m else []
      let evs := if mgr.has_data_processor then evs ++ [ProcEvent.dataProcessorCall] else evs
      (mgr, evs)

/-- `BinanceDataError` as raised by `_handle_stream_message` for an invalid
kline payload. -/
structure BinanceDataErr where
  symbol : String
  stream : String
  message : String
deriving Repr, DecidableEq

/-- `_handle_stream_message` (`binance_websocket.py` lines 445-480): for
kline streams the payload is validated and an invalid payload raises
`BinanceDataError` before the manager's handler is invoked; otherwise the
frame is handed to the manager (whose own exceptions are swallowed by
`_safe_call_message_handler`). -/
def handle_stream_message (mgr : ManagerState) (now : ℕ) (m : StreamMessage) :
    Except BinanceDataErr (ManagerState × List ProcEvent) :=
  match m.stream with
  | none => Except.ok (mgr, [])
  | some stream_name =>
    if stream_name = "" then Except.ok (mgr, [])
    else if pyContains stream_name "@kline_" then
      let kline_data := m.data.k.getD emptyKline
      let r := validate_binance_kline_data_detailed kline_data
      if r.1 then Except.ok (handle_websocket_message mgr now m)
      else Except.error ⟨(pySplit1 stream_name '@').1, stream_name, r.2⟩
    else Except.ok (handle_websocket_message mgr now m)

/-- One inbound frame after JSON decoding, classified as `_handle_message`
does (`binance_websocket.py` lines 422-437). -/
inductive InboundMsg where
  | streamData (m : StreamMessage)
  | controlResponse (id : ℤ) (result : Option ℤ)
  | errorFrame (code : ℤ) (msg : String)
  | unknown
deriving Repr, DecidableEq

/-- `_handle_message` (`binance_websocket.py` lines 409-443): bump the
receive counters, dispatch by message shape, and catch every exception of the
dispatch (an invalid kline frame is only logged; it neither propagates nor
touches the connection). -/
def handle_message (cli : ClientState) (mgr : ManagerState) (now : ℕ) (msg : InboundMsg) :
    ClientState × ManagerState × List ProcEvent :=
  let cli := { cli with
    messages_received := cli.messages_received + 1
    last_message_time := some now }
  match msg with
  | InboundMsg.streamData m =>
    match handle_stream_message mgr now m with
    | Except.ok r => (cli, r.1, r.2)
    | Except.error _ => (cli, mgr, [])
  | _ => (cli, mgr, [])

/-! ### Reconnection (`binance_websocket.py` lines 516-557) -/

/-- `WebSocketReconnectError` (`src/utils/exceptions.py` lines 262-270). -/
structure ReconnectError where
  attempts : ℕ
  max_attempts : ℕ
deriving Repr, DecidableEq

/-- State change of a successful `connect()` (lines 102-154): the state
becomes `connected`, the start time is recorded and the attempt counter is
reset to zero. -/
def connectSuccess (cli : ClientState) (now : ℕ) : ClientState :=
  { cli with
    state := ConnectionState.connected
    connection_id := some "binance"
    connection_start_time := some now
    reconnect_attempts := 0 }

/-- `_handle_reconnection` (lines 516-557): give up (state `closed`, terminal
error to the error handler) once the attempt counter has reached the
configured maximum; otherwise increment the counter, sleep
`min(reconnect_delay * backoff_multiplier ** (attempts - 1), max_reconnect_delay)`
and try `connect()` again, recursing on failure. `connectOk n` tells whether
the `n`-th numbered attempt succeeds. Returns the final client state, the
list of slept backoff delays, and the terminal error if one was raised. -/
def handle_reconnection (cfg : BinanceConfig) (connectOk : ℕ → Bool) (now : ℕ)
    (cli : ClientState) : ClientState × List ℚ × Option ReconnectError :=
  if cli.state = ConnectionState.closed then (cli, [], none)
  else if h2 : cfg.max_reconnect_attempts ≤ cli.reconnect_attempts then
    ({ cli with state := ConnectionState.closed }, [],
      some ⟨cli.reconnect_attempts, cfg.max_reconnect_attempts⟩)
  else
    let attempts := cli.reconnect_attempts + 1
    let delay :=
      min (cfg.reconnect_delay * cfg.backoff_multiplier ^ (attempts - 1))
        cfg.max_reconnect_delay
    if connectOk attempts then
      (connectSuccess
        { cli with
            state := ConnectionState.reconnecting
            reconnect_attempts := attempts } now,
        [delay], none)
    else
      let r := handle_reconnection cfg connectOk now
        { cli with state := ConnectionState.disconnected, reconnect_attempts := attempts }
      (r.1, delay :: r.2.1, r.2.2)
termination_by cfg.max_reconnect_attempts - cli.reconnect_attempts
decreasing_by simp_all; omega

/-! ### Statistics (`binance_websocket.py` lines 349-373,
`stream_manager.py` lines 568-603) -/

/-- `is_connected` (lines 375-386); the live-transport conjuncts are folded
into the `connected` state in this model. -/
def is_connected (cli : ClientState) : Bool := cli.state = ConnectionState.connected

/-- The dictionary returned by `get_connection_stats`. -/
structure ConnectionStats where
  state : String
  connection_id : Option String
  subscribed_streams : List String
  pending_subscriptions : List String
  messages_received : ℕ
  messages_sent : ℕ
  reconnect_attempts : ℕ
  uptime_seconds : Option ℕ
  last_message_time : Option ℕ
  last_ping_time : ℕ
  last_pong_time : ℕ
  is_connected : Bool
deriving Repr, DecidableEq

/-- `get_connection_stats` (lines 349-373): a read-only snapshot of the
client; `uptime_seconds` is `None` when no start time is set and also when
the computed uptime is zero (Python's `round(uptime) if uptime else None`).
The client state is threaded through unchanged. -/
def get_connection_stats (cli : ClientState) (now : ℕ) : ClientState × ConnectionStats :=
  let uptime : Option ℕ := match cli.connection_start_time with
    | some t0 => some (now - t0)
    | none => none
  (cli,
    { state := cli.state.value
      connection_id := cli.connection_id
      subscribed_streams := cli.subscribed_streams
      pending_subscriptions := cli.pending_subscriptions
      messages_received := cli.messages_received
      messages_sent := cli.messages_sent
      reconnect_attempts := cli.reconnect_attempts
      uptime_seconds := match uptime with
        | some u => if u = 0 then none else some u
        | none => none
      last_message_time := cli.last_message_time
      last_ping_time := cli.last_ping_time
      last_pong_time := cli.last_pong_time
      is_connected := is_connected cli })

/-- The per-symbol entry of `get_manager_stats`'s `symbols` dictionary. -/
structure SymbolInfo where
  timeframes : List String
  users_count : ℕ
  users : List ℤ
deriving Repr, DecidableEq

/-- The grouping loop of `get_manager_stats` (lines 580-584): a
`defaultdict` keyed by symbol accumulating the timeframe set and the union
of the user sets. -/
def symbolsFold (subs : List (String × StreamSubscription)) :
    List (String × (List String × List ℤ)) :=
  subs.foldl
    (fun acc e =>
      let sub := e.2
      let cur := (dlookup sub.symbol acc).getD ([], [])
      dinsert sub.symbol (setAdd cur.1 sub.timeframe, sub.users.foldl setAdd cur.2) acc)
    []

/-- The dictionary returned by `get_manager_stats`. -/
structure ManagerStats where
  subscriptions_count : ℕ
  users_count : ℕ
  total_messages_processed : ℕ
  total_subscriptions_created : ℕ
  total_subscriptions_removed : ℕ
  symbols : List (String × SymbolInfo)
  websocket : ConnectionStats
deriving Repr, DecidableEq

/-- `get_manager_stats` (lines 568-603): the websocket snapshot, the
per-symbol grouping and the aggregate counters, all computed from reads;
both states are threaded through unchanged. -/
def get_manager_stats (sys : SysState) (now : ℕ) : SysState × ManagerStats :=
  let ws := get_connection_stats sys.cli now
  let symbols_info := (symbolsFold sys.mgr.subscriptions).map
    (fun e => (e.1, SymbolInfo.mk e.2.1 e.2.2.length e.2.2))
  ({ mgr := sys.mgr, cli := ws.1 },
    { subscriptions_count := sys.mgr.subscriptions.length
      users_count := sys.mgr.user_streams.length
      total_messages_processed := sys.mgr.total_messages_processed
      total_subscriptions_created := sys.mgr.total_subscriptions_created
      total_subscriptions_removed := sys.mgr.total_subscriptions_removed
      symbols := symbols_info
      websocket := ws.2 })

/-! ### Wire serialization of control commands (`json.dumps` of the
SUBSCRIBE/UNSUBSCRIBE dictionaries, lines 207-211, 251-255, 293-297) -/

/-- Minimal JSON value grammar covering the control frames. -/
inductive Json where
  | str (s : String)
  | int (n : ℤ)
  | arr (elems : List Json)
  | obj (fields : List (String × Json))
deriving Repr

mutual

/-- `json.dumps` with its default separators (`", "` and `": "`), for values
whose strings need no escaping (stream names and methods are ASCII
alphanumerics plus `@` and `_`). -/
def jsonRender : Json → String
  | .str s => "\"" ++ s ++ "\""
  | .int n => toString n
  | .arr es => "[" ++ String.intercalate ", " (jsonRenderList es) ++ "]"
  | .obj fs => "\x7b" ++ String.intercalate ", " (jsonRenderFields fs) ++ "\x7d"

/-- Rendering of an array's elements. -/
def jsonRenderList : List Json → List String
  | [] => []
  | j :: rest => jsonRender j :: jsonRenderList rest

/-- Rendering of an object's key/value pairs. -/
def jsonRenderFields : List (String × Json) → List String
  | [] => []
  | f :: rest => ("\"" ++ f.1 ++ "\": " ++ jsonRender f.2) :: jsonRenderFields rest

end

/-- The `subscribe_message` dictionary: insertion order `method`, `params`,
`id` as built by the source. -/
def subscribe_message (params : List String) (id : ℤ) : Json :=
  Json.obj [("method", Json.str "SUBSCRIBE"), ("params", Json.arr (params.map Json.str)),
    ("id", Json.int id)]

/-- The `unsubscribe_message` dictionary. -/
def unsubscribe_message (params : List String) (id : ℤ) : Json :=
  Json.obj [("method", Json.str "UNSUBSCRIBE"), ("params", Json.arr (params.map Json.str)),
    ("id", Json.int id)]

/-! ### Character lemmas (ASCII case mapping) -/

theorem char_toNat_ofNat (n : ℕ) (h : n < 55296) : (Char.ofNat n).toNat = n := by
  have hv : n.isValidChar := Or.inl h
  have h32 : n < UInt32.size := by
    simp [UInt32.size]
    omega
  simp [Char.ofNat, hv, Char.ofNatAux, Char.toNat, UInt32.ofNat', UInt32.toNat,
    BitVec.toNat_ofNatLt]

theorem alnum_toNat (c : Char) (h : c.isAlphanum = true) :
    (48 ≤ c.toNat ∧ c.toNat ≤ 57) ∨ (65 ≤ c.toNat ∧ c.toNat ≤ 90) ∨
      (97 ≤ c.toNat ∧ c.toNat ≤ 122) := by
  simp only [Char.isAlphanum, Char.isAlpha, Char.isDigit, Char.isUpper, Char.isLower,
    Bool.or_eq_true, Bool.and_eq_true, decide_eq_true_eq] at h
  rcases h with (⟨h1, h2⟩ | ⟨h1, h2⟩) | ⟨h1, h2⟩
  · exact Or.inr (Or.inl ⟨UInt32.le_toNat_of_le (by decide) h1,
      UInt32.toNat_le_of_le (by decide) h2⟩)
  · exact Or.inr (Or.inr ⟨UInt32.le_toNat_of_le (by decide) h1,
      UInt32.toNat_le_of_le (by decide) h2⟩)
  · exact Or.inl ⟨UInt32.le_toNat_of_le (by decide) h1,
      UInt32.toNat_le_of_le (by decide) h2⟩

theorem char_eq_iff_toNat (a b : Char) : a = b ↔ a.toNat = b.toNat := by
  constructor
  · rintro rfl; rfl
  · intro h
    have h2 := congrArg Char.ofNat h
    simpa using h2

theorem toLower_ne_at (c : Char) (h : c.isAlphanum = true) : c.toLower ≠ '@' := by
  have hb := alnum_toNat c h
  rw [Ne, char_eq_iff_toNat]
  show ¬ _ = 64
  rw [Char.toLower]
  split
  · rw [char_toNat_ofNat _ (by omega)]
    omega
  · omega

theorem toUpper_toLower_alnum (c : Char) (h : c.isAlphanum = true) :
    c.toLower.toUpper = c.toUpper := by
  have hb := alnum_toNat c h
  rw [Char.toLower]
  split
  · rw [Char.toUpper, Char.toUpper]
    rw [char_toNat_ofNat _ (by omega)]
    rw [if_pos (by omega), if_neg (by omega)]
    conv_rhs => rw [show c = Char.ofNat c.toNat from (Char.ofNat_toNat c).symm]
    congr 1
  · rfl

/-! ### String and list lemmas -/

theorem data_append (a b : String) : (a ++ b).data = a.data ++ b.data := by
  cases a; cases b; rfl

theorem containsSubL_singleton (c : Char) (l : List Char) :
    containsSubL [c] l = true ↔ c ∈ l := by
  induction l with
  | nil => simp [containsSubL, List.isEmpty]
  | cons x xs ih =>
    simp only [containsSubL, List.isPrefixOf, Bool.or_eq_true, Bool.and_eq_true,
      beq_iff_eq, ih, List.mem_cons]
    tauto

theorem isPrefixOf_append_self (p t : List Char) : p.isPrefixOf (p ++ t) = true := by
  induction p with
  | nil => simp [List.isPrefixOf]
  | cons a as ih => simp [List.isPrefixOf, ih]

theorem splitFirstL_append (sep : Char) (pre suf : List Char) (h : sep ∉ pre) :
    splitFirstL sep (pre ++ sep :: suf) = (pre, suf) := by
  induction pre with
  | nil => simp [splitFirstL]
  | cons a as ih =>
    have ha : a ≠ sep := by
      rintro rfl
      exact h (List.mem_cons_self a as)
    have has : sep ∉ as := fun hm => h (List.mem_cons_of_mem a hm)
    simp [splitFirstL, ha, ih has]

/-! ### Lemmas about the dictionary model -/

@[simp]
theorem dlookup_nil {α : Type} [DecidableEq α] {β : Type} (k : α) :
    dlookup (β := β) k [] = none := rfl

@[simp]
theorem dlookup_dinsert_self {α : Type} [DecidableEq α] {β : Type} (k : α) (v : β)
    (l : List (α × β)) : dlookup k (dinsert k v l) = some v := by
  induction l with
  | nil => simp [dlookup, dinsert]
  | cons e rest ih =>
    obtain ⟨a, b⟩ := e
    by_cases h : a = k <;> simp [dlookup, dinsert, h, ih]

theorem dlookup_dinsert_ne {α : Type} [DecidableEq α] {β : Type} {k k' : α} (v : β)
    (l : List (α × β)) (h : k ≠ k') : dlookup k' (dinsert k v l) = dlookup k' l := by
  induction l with
  | nil => simp [dlookup, dinsert, h]
  | cons e rest ih =>
    obtain ⟨a, b⟩ := e
    by_cases ha : a = k
    · subst ha
      simp [dlookup, dinsert, h]
    · by_cases ha' : a = k' <;> simp [dlookup, dinsert, ha, ha', ih, Ne.symm h]

@[simp]
theorem dlookup_derase_self {α : Type} [DecidableEq α] {β : Type} (k : α) (l : List (α × β)) :
    dlookup k (derase k l) = none := by
  induction l with
  | nil => rfl
  | cons e rest ih =>
    obtain ⟨a, b⟩ := e
    by_cases h : a = k <;> simp [derase, dlookup, h] at ih ⊢ <;> simpa [derase] using ih

theorem dlookup_derase_ne {α : Type} [DecidableEq α] {β : Type} {k k' : α} (l : List (α × β))
    (h : k ≠ k') : dlookup k' (derase k l) = dlookup k' l := by
  induction l with
  | nil => rfl
  | cons e rest ih =>
    obtain ⟨a, b⟩ := e
    by_cases ha : a = k
    · subst ha
      have h1 : derase a ((a, b) :: rest) = derase a rest := by simp [derase]
      have h2 : dlookup k' ((a, b) :: rest) = dlookup k' rest := by simp [dlookup, h]
      rw [h1, ih, h2]
    · have h1 : derase k ((a, b) :: rest) = (a, b) :: derase k rest := by simp [derase, ha]
      rw [h1]
      by_cases ha' : a = k' <;> simp [dlookup, ha', ih]

/-! ### C10: formatter/parser roundtrip -/

/-- C10: for every alphanumeric symbol and every non-empty timeframe without
an `@`, `parse_stream_name (get_kline_stream_name symbol timeframe)` is valid,
of type `kline`, with the symbol uppercased and the timeframe unchanged —
the stream-name formatter and parser are mutual inverses up to case
normalization. -/
theorem parse_format_roundtrip (symbol timeframe : String)
    (hsym : pyIsAlnum symbol = true) (htf1 : timeframe ≠ "")
    (htf2 : pyContains timeframe "@" = false) :
    parse_stream_name (get_kline_stream_name symbol timeframe) =
      { valid := true, type := some "kline", symbol := some (pyUpper symbol),
        timeframe := some timeframe } := by
  obtain ⟨sd⟩ := symbol
  obtain ⟨td⟩ := timeframe
  simp only [pyIsAlnum, Bool.and_eq_true, List.all_eq_true] at hsym
  have hall : ∀ c ∈ sd, c.isAlphanum = true := fun c hc => hsym.2 c hc
  have hnotat : '@' ∉ sd.map Char.toLower := by
    intro hmem
    obtain ⟨c, hc, hce⟩ := List.mem_map.1 hmem
    exact toLower_ne_at c (hall c hc) hce
  have hdata : (get_kline_stream_name ⟨sd⟩ ⟨td⟩).data =
      sd.map Char.toLower ++ '@' :: ("kline_".data ++ td) := by
    show (pyLower ⟨sd⟩ ++ "@kline_" ++ (⟨td⟩ : String)).data = _
    rw [data_append, data_append]
    show (sd.map Char.toLower ++ ('@' :: "kline_".data)) ++ td = _
    simp [List.append_assoc]
  have hname : get_kline_stream_name ⟨sd⟩ ⟨td⟩ =
      ⟨sd.map Char.toLower ++ '@' :: ("kline_".data ++ td)⟩ := by
    conv_lhs => rw [show get_kline_stream_name ⟨sd⟩ ⟨td⟩ =
      ⟨(get_kline_stream_name ⟨sd⟩ ⟨td⟩).data⟩ from rfl]
    rw [hdata]
  rw [hname]
  have hcont : pyContains ⟨sd.map Char.toLower ++ '@' :: ("kline_".data ++ td)⟩ "@" = true := by
    rw [pyContains]
    show containsSubL ['@'] _ = true
    exact (containsSubL_singleton _ _).2 (by simp)
  have hsplit : splitFirstL '@' (sd.map Char.toLower ++ '@' :: ("kline_".data ++ td)) =
      (sd.map Char.toLower, "kline_".data ++ td) :=
    splitFirstL_append '@' _ _ hnotat
  have hpre : pyStartsWith ⟨"kline_".data ++ td⟩ "kline_" = true := by
    rw [pyStartsWith]
    exact isPrefixOf_append_self _ _
  have hupper : (sd.map Char.toLower).map Char.toUpper = sd.map Char.toUpper := by
    rw [List.map_map]
    exact List.map_congr_left (fun c hc => toUpper_toLower_alnum c (hall c hc))
  have hdrop : ("kline_".data ++ td).drop 6 = td := by
    rw [show (6 : ℕ) = "kline_".data.length from rfl]
    exact List.drop_left _ _
  rw [parse_stream_name]
  rw [if_neg (by rw [hcont]; simp)]
  simp only [pySplit1, hsplit]
  rw [if_pos hpre]
  simp only [pyUpper, pyDrop, hupper, hdrop]

/-- C10 witness: the roundtrip at `("BTCUSDT", "1m")`. -/
theorem parse_format_roundtrip_witness :
    parse_stream_name (get_kline_stream_name "BTCUSDT" "1m") =
      { valid := true, type := some "kline", symbol := some (pyUpper "BTCUSDT"),
        timeframe := some "1m" } :=
  parse_format_roundtrip "BTCUSDT" "1m" (by decide) (by decide) (by decide)

/-! ### Reconnection lemmas (C4, C6) -/

/-- The spec's backoff schedule: starting from attempt counter `a` with
`f` attempts remaining, the delay before each successive attempt is
`min(reconnect_delay * backoff_multiplier ^ counter, max_reconnect_delay)`. -/
def specBackoffDelays (cfg : BinanceConfig) (a : ℕ) : ℕ → List ℚ
  | 0 => []
  | f + 1 =>
    min (cfg.reconnect_delay * cfg.backoff_multiplier ^ a) cfg.max_reconnect_delay ::
      specBackoffDelays cfg (a + 1) f

theorem specBackoffDelays_get (cfg : BinanceConfig) :
    ∀ (f a i : ℕ), i < f →
      (specBackoffDelays cfg a f).get? i =
        some (min (cfg.reconnect_delay * cfg.backoff_multiplier ^ (a + i))
          cfg.max_reconnect_delay) := by
  intro f
  induction f with
  | zero => omega
  | succ f ih =>
    intro a i hi
    match i with
    | 0 => simp [specBackoffDelays]
    | j + 1 =>
      have := ih (a + 1) j (by omega)
      simp only [specBackoffDelays, List.get?_cons_succ, this]
      rw [show a + 1 + j = a + (j + 1) by omega]

theorem specBackoffDelays_length (cfg : BinanceConfig) :
    ∀ (f a : ℕ), (specBackoffDelays cfg a f).length = f := by
  intro f
  induction f with
  | zero => intro a; rfl
  | succ f ih => intro a; simp [specBackoffDelays, ih]

/-- When every connect attempt fails, the slept delays follow the
exponential-backoff schedule from the current attempt counter up to the
attempt ceiling. -/
theorem handle_reconnection_all_fail (cfg : BinanceConfig) (now : ℕ) :
    ∀ (fuel : ℕ) (cli : ClientState), cli.state ≠ ConnectionState.closed →
      cfg.max_reconnect_attempts - cli.reconnect_attempts = fuel →
      (handle_reconnection cfg (fun _ => false) now cli).2.1 =
        specBackoffDelays cfg cli.reconnect_attempts fuel := by
  intro fuel
  induction fuel with
  | zero =>
    intro cli h1 h2
    rw [handle_reconnection]
    have hle : cfg.max_reconnect_attempts ≤ cli.reconnect_attempts := by omega
    simp [h1, hle, specBackoffDelays]
  | succ f ih =>
    intro cli h1 h2
    rw [handle_reconnection]
    have hlt : ¬ cfg.max_reconnect_attempts ≤ cli.reconnect_attempts := by omega
    have hrec := ih
      { cli with state := ConnectionState.disconnected, reconnect_attempts := cli.reconnect_attempts + 1 }
      (by simp) (by simp; omega)
    simp only [h1, hlt, if_neg, if_false, dif_neg, not_false_eq_true, Bool.false_eq_true,
      ite_false, ite_true, if_true]
    simp only [hrec, specBackoffDelays]
    simp

/-- For any connect oracle the number of reconnect sleeps (hence of
reconnect attempts) is bounded by the remaining attempt budget. -/
theorem handle_reconnection_length (cfg : BinanceConfig) (connectOk : ℕ → Bool) (now : ℕ) :
    ∀ (fuel : ℕ) (cli : ClientState),
      cfg.max_reconnect_attempts - cli.reconnect_attempts = fuel →
      (handle_reconnection cfg connectOk now cli).2.1.length ≤ fuel := by
  intro fuel
  induction fuel with
  | zero =>
    intro cli h2
    rw [handle_reconnection]
    by_cases h1 : cli.state = ConnectionState.closed
    · simp [h1]
    · have hle : cfg.max_reconnect_attempts ≤ cli.reconnect_attempts := by omega
      simp [h1, hle]
  | succ f ih =>
    intro cli h2
    rw [handle_reconnection]
    by_cases h1 : cli.state = ConnectionState.closed
    · simp [h1]
    · by_cases hle : cfg.max_reconnect_attempts ≤ cli.reconnect_attempts
      · simp [h1, hle]
      · have hrec := ih
          { cli with state := ConnectionState.disconnected, reconnect_attempts := cli.reconnect_attempts + 1 }
          (by simp; omega)
        by_cases hok : connectOk (cli.reconnect_attempts + 1) <;>
          simp [h1, hle, hok] <;> omega

/-- C4: the reconnect delay before attempt `n` is
`min(reconnect_delay * backoff_multiplier^(n-1), max_reconnect_delay)`; with
the default configuration (`max_reconnect_attempts=5, reconnect_delay=5,
backoff_multiplier=2, max_reconnect_delay=300`) the successive delays of an
all-failing run are exactly `5, 10, 20, 40, 80`, and no sixth attempt is ever
made (the number of attempts is bounded by the attempt ceiling for every
outcome sequence). -/
theorem backoff_schedule :
    (∀ (cfg : BinanceConfig) (now : ℕ) (cli : ClientState) (n : ℕ),
      cli.state ≠ ConnectionState.closed → cli.reconnect_attempts = 0 →
      1 ≤ n → n ≤ cfg.max_reconnect_attempts →
      ((handle_reconnection cfg (fun _ => false) now cli).2.1).get? (n - 1) =
        some (min (cfg.reconnect_delay * cfg.backoff_multiplier ^ (n - 1))
          cfg.max_reconnect_delay))
  ∧ (handle_reconnection binance_config (fun _ => false) 0
      { state := ConnectionState.disconnected }).2.1 = [5, 10, 20, 40, 80]
  ∧ (∀ (connectOk : ℕ → Bool) (cli : ClientState), cli.reconnect_attempts = 0 →
      (handle_reconnection binance_config connectOk 0 cli).2.1.length ≤ 5) := by
  refine ⟨?_, ?_, ?_⟩
  · intro cfg now cli n h1 h0 hn1 hn2
    rw [handle_reconnection_all_fail cfg now (cfg.max_reconnect_attempts - cli.reconnect_attempts)
      cli h1 rfl]
    rw [specBackoffDelays_get cfg _ _ _ (by omega)]
    simp [h0]
  · rw [handle_reconnection_all_fail binance_config 0 5 _ (by simp) (by rfl)]
    simp only [specBackoffDelays]
    norm_num [binance_config]
  · intro connectOk cli h0
    have := handle_reconnection_length binance_config connectOk 0
      (binance_config.max_reconnect_attempts - cli.reconnect_attempts) cli rfl
    simpa [binance_config, h0] using this

/-- C4 witness: the third delay of the default all-failing run is
`min(5 * 2^2, 300) = 20`. -/
theorem backoff_schedule_witness :
    ((handle_reconnection binance_config (fun _ => false) 0
      { state := ConnectionState.disconnected }).2.1).get? 2 = some 20 := by
  have h := backoff_schedule.1 binance_config 0
    { state := ConnectionState.disconnected } 3
    (by simp) rfl (by norm_num) (by norm_num [binance_config])
  rw [h]
  norm_num [binance_config]

/-- C6: once the attempt counter has reached the configured maximum,
`_handle_reconnection` stops retrying (no further sleep or attempt),
transitions the connection state to `closed`, and surfaces the terminal
`WebSocketReconnectError` through the error handler. -/
theorem reconnect_exhausted_terminal (cfg : BinanceConfig) (connectOk : ℕ → Bool) (now : ℕ)
    (cli : ClientState) (h1 : cli.state ≠ ConnectionState.closed)
    (h2 : cfg.max_reconnect_attempts ≤ cli.reconnect_attempts) :
    handle_reconnection cfg connectOk now cli =
      ({ cli with state := ConnectionState.closed }, [],
        some ⟨cli.reconnect_attempts, cfg.max_reconnect_attempts⟩) := by
  rw [handle_reconnection]
  simp [h1, h2]

/-- C6 witness: an exhausted client (5 of 5 attempts) is closed with the
terminal error. -/
theorem reconnect_exhausted_terminal_witness :
    handle_reconnection binance_config (fun _ => false) 0
      { state := ConnectionState.disconnected, reconnect_attempts := 5 } =
      ({ state := ConnectionState.closed, reconnect_attempts := 5 }, [], some ⟨5, 5⟩) :=
  reconnect_exhausted_terminal binance_config (fun _ => false) 0
    { state := ConnectionState.disconnected, reconnect_attempts := 5 }
    (by simp) (by norm_num [binance_config])

/-! ### Set-model lemmas -/

theorem setAdd_of_mem {α : Type} [DecidableEq α] {l : List α} {a : α} (h : a ∈ l) :
    setAdd l a = l := by
  simp [setAdd, h]

theorem mem_setAdd_self {α : Type} [DecidableEq α] (l : List α) (a : α) : a ∈ setAdd l a := by
  by_cases h : a ∈ l <;> simp [setAdd, h]

theorem setAdd_idem {α : Type} [DecidableEq α] (l : List α) (a : α) :
    setAdd (setAdd l a) a = setAdd l a :=
  setAdd_of_mem (mem_setAdd_self l a)

theorem dinsert_dinsert_same {α : Type} [DecidableEq α] {β : Type} (k : α) (v w : β)
    (l : List (α × β)) : dinsert k v (dinsert k w l) = dinsert k v l := by
  induction l with
  | nil => simp [dinsert]
  | cons e rest ih =>
    obtain ⟨a, b⟩ := e
    by_cases h : a = k <;> simp [dinsert, h, ih]

theorem usAdd_idem (us : List (ℤ × List String)) (u : ℤ) (s : String) :
    usAdd (usAdd us u s) u s = usAdd us u s := by
  rcases h : dlookup u us with _ | l
  · simp only [usAdd, h, dlookup_dinsert_self]
    rw [show setAdd [s] s = [s] from by simp [setAdd]]
    exact dinsert_dinsert_same _ _ _ _
  · simp only [usAdd, h, dlookup_dinsert_self]
    rw [setAdd_idem]
    exact dinsert_dinsert_same _ _ _ _

theorem add_user_idem (sub : StreamSubscription) (u : ℤ) :
    (sub.add_user u).add_user u = sub.add_user u := by
  simp [StreamSubscription.add_user, setAdd_idem]

/-! ### C7: idempotent add, no-op removal of a non-member -/

/-- C7: adding the same consumer to the same stream twice in a row (one
iteration of the `subscribe_user_to_pair` loop repeated) leaves the registry
state exactly as after adding it once; and `remove_user` on a non-member
leaves the subscription unchanged and reports that it did not become empty,
provided other members remain. -/
theorem add_twice_remove_nonmember :
    (∀ (st : SubLoopState) (u : ℤ) (sym tf : String) (now1 now2 : ℕ),
      subscribeStep u sym now2 (subscribeStep u sym now1 st tf) tf =
        subscribeStep u sym now1 st tf)
  ∧ (∀ (sub : StreamSubscription) (u : ℤ), u ∉ sub.users → sub.users ≠ [] →
      sub.remove_user u = (sub, false)) := by
  constructor
  · intro st u sym tf now1 now2
    by_cases hv : (validate_timeframe tf).1
    · simp only [subscribeStep, hv, not_true, if_neg, ite_false, not_false_eq_true,
        Bool.not_eq_true]
      rcases hl : dlookup (get_kline_stream_name sym tf) st.mgr.subscriptions with _ | sub
      · simp only [hl, dlookup_dinsert_self]
        have hmk : (StreamSubscription.make sym tf [u] now1).add_user u =
            StreamSubscription.make sym tf [u] now1 := by
          simp [StreamSubscription.add_user, StreamSubscription.make, setAdd]
        simp [hmk, dinsert_dinsert_same, usAdd_idem]
      · simp only [hl, dlookup_dinsert_self]
        simp [add_user_idem, dinsert_dinsert_same, usAdd_idem]
    · simp only [subscribeStep, hv]
      simp [dinsert_dinsert_same]
  · intro sub u h1 h2
    simp only [StreamSubscription.remove_user, setDiscard]
    have hf : sub.users.filter (· ≠ u) = sub.users := by
      apply List.filter_eq_self.2
      intro a ha
      simp only [ne_eq, decide_not, Bool.not_eq_false', Bool.not_eq_true', decide_eq_true_eq,
        decide_eq_false_iff_not]
      rintro rfl
      exact h1 ha
    rw [hf]
    have he : sub.users.isEmpty = false := by
      simpa [List.isEmpty_iff] using h2
    rw [he]

/-- C7 witness: a second identical subscribe-loop iteration at
`(1001, BTCUSDT, 1m)` is a no-op, and removing absent consumer `5` from a
subscription held by `7` keeps it intact with `removed = false`. -/
theorem add_twice_remove_nonmember_witness :
    (subscribeStep 1001 "BTCUSDT" 0 (subscribeStep 1001 "BTCUSDT" 0 { mgr := {} } "1m") "1m" =
      subscribeStep 1001 "BTCUSDT" 0 { mgr := {} } "1m")
  ∧ StreamSubscription.remove_user ⟨"BTCUSDT", "1m", [7], "btcusdt@kline_1m", 0, none, 0⟩ 5 =
      (⟨"BTCUSDT", "1m", [7], "btcusdt@kline_1m", 0, none, 0⟩, false) :=
  ⟨add_twice_remove_nonmember.1 { mgr := {} } 1001 "BTCUSDT" "1m" 0 0,
    add_twice_remove_nonmember.2 ⟨"BTCUSDT", "1m", [7], "btcusdt@kline_1m", 0, none, 0⟩ 5
      (by decide) (by decide)⟩

/-! ### C2: basic subscribe/unsubscribe scenario -/

/-- C2: with a connected client, consumer 1001 subscribing to BTCUSDT on
`["1m","5m"]` issues exactly one upstream SUBSCRIBE for both kline streams;
consumer 1002 subscribing to `["1m"]` issues nothing new; 1001's unsubscribe
from `1m` issues nothing and leaves the stream alive (1002 still holds it);
1002's unsubscribe then issues exactly one UNSUBSCRIBE for
`btcusdt@kline_1m` only. -/
theorem basic_subscribe_unsubscribe_scenario :
    (subscribe_user_to_pair { cli := { state := ConnectionState.connected } }
        1001 "BTCUSDT" ["1m", "5m"] 0 true).2.1 =
      [UpMsg.subscribe ["btcusdt@kline_1m", "btcusdt@kline_5m"]]
  ∧ ((subscribe_user_to_pair
        (subscribe_user_to_pair { cli := { state := ConnectionState.connected } }
          1001 "BTCUSDT" ["1m", "5m"] 0 true).1
        1002 "BTCUSDT" ["1m"] 0 true).2.1 = []
  ∧ ((unsubscribe_user_from_pair
        (subscribe_user_to_pair
          (subscribe_user_to_pair { cli := { state := ConnectionState.connected } }
            1001 "BTCUSDT" ["1m", "5m"] 0 true).1
          1002 "BTCUSDT" ["1m"] 0 true).1
        1001 "BTCUSDT" ["1m"] true).2.1 = []
  ∧ ((dlookup "btcusdt@kline_1m"
        (unsubscribe_user_from_pair
          (subscribe_user_to_pair
            (subscribe_user_to_pair { cli := { state := ConnectionState.connected } }
              1001 "BTCUSDT" ["1m", "5m"] 0 true).1
            1002 "BTCUSDT" ["1m"] 0 true).1
          1001 "BTCUSDT" ["1m"] true).1.mgr.subscriptions).isSome = true
  ∧ (unsubscribe_user_from_pair
        (unsubscribe_user_from_pair
          (subscribe_user_to_pair
            (subscribe_user_to_pair { cli := { state := ConnectionState.connected } }
              1001 "BTCUSDT" ["1m", "5m"] 0 true).1
            1002 "BTCUSDT" ["1m"] 0 true).1
          1001 "BTCUSDT" ["1m"] true).1
        1002 "BTCUSDT" ["1m"] true).2.1 =
      [UpMsg.unsubscribe ["btcusdt@kline_1m"]]))) := by
  decide

/-! ### C9: statistics are read-only -/

/-- C9: `get_manager_stats` (with the session's `get_connection_stats`)
returns the subscription count, the per-symbol consumer information, the
total messages processed and the connection uptime, and leaves every field
of the manager and client state unchanged. -/
theorem manager_stats_read_only (sys : SysState) (now : ℕ) :
    (get_manager_stats sys now).1 = sys
  ∧ (get_connection_stats sys.cli now).1 = sys.cli
  ∧ (get_manager_stats sys now).2.subscriptions_count = sys.mgr.subscriptions.length
  ∧ (get_manager_stats sys now).2.users_count = sys.mgr.user_streams.length
  ∧ (get_manager_stats sys now).2.total_messages_processed =
      sys.mgr.total_messages_processed
  ∧ (get_manager_stats sys now).2.symbols =
      (symbolsFold sys.mgr.subscriptions).map
        (fun e => (e.1, SymbolInfo.mk e.2.1 e.2.2.length e.2.2))
  ∧ (get_manager_stats sys now).2.websocket = (get_connection_stats sys.cli now).2
  ∧ (get_manager_stats sys now).2.websocket.uptime_seconds =
      (match sys.cli.connection_start_time with
        | some t0 => if now - t0 = 0 then none else some (now - t0)
        | none => none) := by
  refine ⟨rfl, rfl, rfl, rfl, rfl, rfl, rfl, ?_⟩
  show (get_connection_stats sys.cli now).2.uptime_seconds = _
  rcases h : sys.cli.connection_start_time with _ | t0 <;>
    simp [get_connection_stats, h]

/-! ### C8: wire format of control commands and stream names -/

theorem data_ext {a b : String} (h : a.data = b.data) : a = b := by
  cases a; cases b; cases h; rfl

theorem jsonRenderList_strs (params : List String) :
    jsonRenderList (params.map Json.str) =
      params.map (fun s => "\"" ++ s ++ "\"") := by
  induction params with
  | nil => rfl
  | cons p rest ih => simp [jsonRenderList, jsonRender, ih]

theorem subscribeStep_streams (u : ℤ) (sym : String) (now : ℕ) (st : SubLoopState)
    (tf : String) :
    (subscribeStep u sym now st tf).streams_to_subscribe = st.streams_to_subscribe ∨
    (subscribeStep u sym now st tf).streams_to_subscribe =
      st.streams_to_subscribe ++ [get_kline_stream_name sym tf] := by
  by_cases hv : (validate_timeframe tf).1
  · rcases hl : dlookup (get_kline_stream_name sym tf) st.mgr.subscriptions with _ | sub
    · right; simp [subscribeStep, hv, hl]
    · left; simp [subscribeStep, hv, hl]
  · left; simp [subscribeStep, hv]

theorem subscribe_fold_streams (u : ℤ) (sym : String) (now : ℕ) :
    ∀ (tfs : List String) (st : SubLoopState),
      ∀ p ∈ (tfs.foldl (subscribeStep u sym now) st).streams_to_subscribe,
        p ∈ st.streams_to_subscribe ∨ ∃ tf ∈ tfs, p = get_kline_stream_name sym tf := by
  intro tfs
  induction tfs with
  | nil => intro st p hp; exact Or.inl hp
  | cons tf rest ih =>
    intro st p hp
    rcases ih (subscribeStep u sym now st tf) p hp with h | ⟨tf', ht', he⟩
    · rcases subscribeStep_streams u sym now st tf with hs | hs
      · rw [hs] at h
        exact Or.inl h
      · rw [hs] at h
        rcases List.mem_append.1 h with h2 | h2
        · exact Or.inl h2
        · exact Or.inr ⟨tf, List.mem_cons_self tf rest, by simpa using h2⟩
    · exact Or.inr ⟨tf', List.mem_cons_of_mem tf ht', he⟩

theorem subscribe_to_multiple_streams_msgs (cli : ClientState) (names : List String)
    (ok : Bool) :
    (subscribe_to_multiple_streams cli names ok).2.1 = [] ∨
    (subscribe_to_multiple_streams cli names ok).2.1 = [UpMsg.subscribe names] := by
  rw [subscribe_to_multiple_streams]
  split_ifs <;> simp

/-- C8: every SUBSCRIBE (and UNSUBSCRIBE) control command serializes to the
JSON object `\x7b"method": ..., "params": [...], "id": <int>\x7d` with the
stream names as the `params` array; the kline stream name for a symbol and
timeframe is exactly the lowercased symbol, `@kline_`, and the timeframe
(ticker `@ticker`, depth `@depth<level>`); and every stream name placed in a
SUBSCRIBE issued by `subscribe_user_to_pair` has exactly that kline form for
one of the requested timeframes. -/
theorem wire_format :
    (∀ (params : List String) (id : ℤ),
      jsonRender (subscribe_message params id) =
        "\x7b\"method\": \"SUBSCRIBE\", \"params\": [" ++
          (String.intercalate ", " (params.map (fun s => "\"" ++ s ++ "\"")) ++
          ("], \"id\": " ++ (toString id ++ "\x7d"))))
  ∧ (∀ (params : List String) (id : ℤ),
      jsonRender (unsubscribe_message params id) =
        "\x7b\"method\": \"UNSUBSCRIBE\", \"params\": [" ++
          (String.intercalate ", " (params.map (fun s => "\"" ++ s ++ "\"")) ++
          ("], \"id\": " ++ (toString id ++ "\x7d"))))
  ∧ (∀ symbol timeframe,
      get_kline_stream_name symbol timeframe = pyLower symbol ++ "@kline_" ++ timeframe)
  ∧ (∀ symbol, get_ticker_stream_name symbol = pyLower symbol ++ "@ticker")
  ∧ (∀ symbol level, get_depth_stream_name symbol level = pyLower symbol ++ "@depth" ++ level)
  ∧ (∀ (sys : SysState) (u : ℤ) (sym : String) (tfs : List String) (now : ℕ) (ok : Bool)
      (msg : UpMsg), msg ∈ (subscribe_user_to_pair sys u sym tfs now ok).2.1 →
      ∃ ps, msg = UpMsg.subscribe ps ∧
        ∀ p ∈ ps, ∃ tf ∈ tfs, p = get_kline_stream_name sym tf) := by
  refine ⟨?_, ?_, fun _ _ => rfl, fun _ => rfl, fun _ _ => rfl, ?_⟩
  · intro params id
    apply data_ext
    simp only [subscribe_message, jsonRender, jsonRenderFields, jsonRenderList_strs,
      String.intercalate, String.intercalate.go]
    simp [data_append]
  · intro params id
    apply data_ext
    simp only [unsubscribe_message, jsonRender, jsonRenderFields, jsonRenderList_strs,
      String.intercalate, String.intercalate.go]
    simp [data_append]
  · intro sys u sym tfs now ok msg hmsg
    rw [subscribe_user_to_pair] at hmsg
    by_cases hempty :
        (subscribe_user_to_pair_registry sys.mgr u sym tfs now).streams_to_subscribe.isEmpty
    · simp only [hempty, ite_true, if_true] at hmsg
      simp at hmsg
    · simp only [hempty, Bool.false_eq_true, ite_false, if_false] at hmsg
      rcases subscribe_to_multiple_streams_msgs sys.cli
          (subscribe_user_to_pair_registry sys.mgr u sym tfs now).streams_to_subscribe ok with
        hm | hm
      · rw [hm] at hmsg
        simp at hmsg
      · rw [hm] at hmsg
        simp only [List.mem_singleton] at hmsg
        subst hmsg
        refine ⟨_, rfl, ?_⟩
        intro p hp
        rw [subscribe_user_to_pair_registry] at hp
        by_cases hsym : (validate_trading_pair_symbol sym).1
        · simp only [hsym, not_true, if_neg, ite_false, not_false_eq_true] at hp
          rcases subscribe_fold_streams u sym now tfs { mgr := sys.mgr } p hp with h | h
          · simp at h
          · exact h
        · simp only [hsym, not_false_eq_true, ite_true, if_pos] at hp
          simp at hp

/-- C8 witness: the SUBSCRIBE emitted for consumer 1001 on BTCUSDT
`["1m","5m"]` carries exactly kline-formatted stream names. -/
theorem wire_format_witness :
    ∃ ps, UpMsg.subscribe ["btcusdt@kline_1m", "btcusdt@kline_5m"] = UpMsg.subscribe ps ∧
      ∀ p ∈ ps, ∃ tf ∈ ["1m", "5m"], p = get_kline_stream_name "BTCUSDT" tf :=
  wire_format.2.2.2.2.2 { cli := { state := ConnectionState.connected } } 1001 "BTCUSDT"
    ["1m", "5m"] 0 true (UpMsg.subscribe ["btcusdt@kline_1m", "btcusdt@kline_5m"]) (by decide)

/-! ### C1: malformed frames are dropped, closed frames processed once -/

set_option maxHeartbeats 1000000 in
/-- Everything a successful kline validation guarantees: all required fields
present and every check of `validate_binance_kline_data_detailed` passed. -/
theorem validate_true_elim (k : KlineData) (hval : validate_binance_kline_data k = true) :
    ∃ t T s i o c hi lo v q n Vv Qv xv,
      k.t = some t ∧ k.T = some T ∧ k.s = some s ∧ k.i = some i ∧ k.o = some o ∧
      k.c = some c ∧ k.h = some hi ∧ k.l = some lo ∧ k.v = some v ∧ k.q = some q ∧
      k.n = some n ∧ k.V = some Vv ∧ k.Q = some Qv ∧ k.x = some xv ∧
      0 < t ∧ 0 < T ∧ t < T ∧ 0 < o ∧ 0 < c ∧ 0 < hi ∧ 0 < lo ∧
      max o c ≤ hi ∧ lo ≤ min o c ∧ 0 ≤ v ∧ 0 ≤ q ∧ 0 ≤ Vv ∧ 0 ≤ Qv ∧ Vv ≤ v ∧
      0 ≤ n ∧ s ≠ "" ∧ i ≠ "" := by
  obtain ⟨kt, kT, ks, ki, ko, kc, kh, kl, kv, kq, kn, kV, kQ, kx⟩ := k
  rcases kt with _ | t
  · simp [validate_binance_kline_data, validate_binance_kline_data_detailed] at hval
  rcases kT with _ | T
  · simp [validate_binance_kline_data, validate_binance_kline_data_detailed] at hval
  rcases ks with _ | s
  · simp [validate_binance_kline_data, validate_binance_kline_data_detailed] at hval
  rcases ki with _ | i
  · simp [validate_binance_kline_data, validate_binance_kline_data_detailed] at hval
  rcases ko with _ | o
  · simp [validate_binance_kline_data, validate_binance_kline_data_detailed] at hval
  rcases kc with _ | c
  · simp [validate_binance_kline_data, validate_binance_kline_data_detailed] at hval
  rcases kh with _ | hi
  · simp [validate_binance_kline_data, validate_binance_kline_data_detailed] at hval
  rcases kl with _ | lo
  · simp [validate_binance_kline_data, validate_binance_kline_data_detailed] at hval
  rcases kv with _ | v
  · simp [validate_binance_kline_data, validate_binance_kline_data_detailed] at hval
  rcases kq with _ | q
  · simp [validate_binance_kline_data, validate_binance_kline_data_detailed] at hval
  rcases kn with _ | n
  · simp [validate_binance_kline_data, validate_binance_kline_data_detailed] at hval
  rcases kV with _ | Vv
  · simp [validate_binance_kline_data, validate_binance_kline_data_detailed] at hval
  rcases kQ with _ | Qv
  · simp [validate_binance_kline_data, validate_binance_kline_data_detailed] at hval
  rcases kx with _ | xv
  · simp [validate_binance_kline_data, validate_binance_kline_data_detailed] at hval
  simp only [validate_binance_kline_data, validate_binance_kline_data_detailed] at hval
  split_ifs at hval with h1 h2 h3 h4 h5 h6 h7 h8 h9 h10 <;>
    try exact Bool.noConfusion hval
  push_neg at h1 h2 h3 h4 h5 h6 h7 h8 h9 h10
  refine ⟨t, T, s, i, o, c, hi, lo, v, q, n, Vv, Qv, xv,
    rfl, rfl, rfl, rfl, rfl, rfl, rfl, rfl, rfl, rfl, rfl, rfl, rfl, rfl,
    h1.1, h1.2, h2, h3.1, h3.2.1, h3.2.2.1, h3.2.2.2, h4, h5,
    h6.1, h6.2.1, h6.2.2.1, h6.2.2.2, h7, h8, ?_, ?_⟩
  · rintro rfl
    exact h9.1 rfl
  · rintro rfl
    exact h10 rfl

/-- C1: an inbound kline frame failing schema validation (in particular one
with a missing OHLCV field, `open_time ≥ close_time`, `high < max(open,close)`,
`low > min(open,close)`, or a negative volume) is dropped by `_handle_message`:
no collaborator is invoked, the manager state is untouched, and the client
only counts the received frame — the connection state is unchanged, nothing
propagates as a crash. A well-formed frame with `is_closed = true` for a live
subscribed stream reaches the closed-candle signal pipeline exactly once. -/
theorem kline_frame_validation_dispatch :
    (∀ (cli : ClientState) (mgr : ManagerState) (now : ℕ) (m : StreamMessage) (name : String),
      m.stream = some name → name ≠ "" → pyContains name "@kline_" = true →
      validate_binance_kline_data (m.data.k.getD emptyKline) = false →
      handle_message cli mgr now (InboundMsg.streamData m) =
        ({ cli with
            messages_received := cli.messages_received + 1
            last_message_time := some now }, mgr, []))
  ∧ (∀ (k : KlineData) (a b : ℤ), k.t = some a → k.T = some b → b ≤ a →
      validate_binance_kline_data k = false)
  ∧ (∀ (k : KlineData) (o c h : ℚ), k.o = some o → k.c = some c → k.h = some h →
      h < max o c → validate_binance_kline_data k = false)
  ∧ (∀ (k : KlineData) (o c l : ℚ), k.o = some o → k.c = some c → k.l = some l →
      min o c < l → validate_binance_kline_data k = false)
  ∧ (∀ (k : KlineData) (v : ℚ), k.v = some v → v < 0 →
      validate_binance_kline_data k = false)
  ∧ (∀ (k : KlineData), k.o = none → validate_binance_kline_data k = false)
  ∧ (∀ (cli : ClientState) (mgr : ManagerState) (now : ℕ) (m : StreamMessage)
      (name : String) (kd : KlineData) (sub : StreamSubscription),
      m.stream = some name → name ≠ "" → pyContains name "@kline_" = true →
      (parse_stream_name name).valid = true →
      (parse_stream_name name).type = some "kline" →
      m.data.k = some kd → validate_binance_kline_data kd = true → kd.x = some true →
      dlookup name mgr.subscriptions = some sub → sub.users ≠ [] →
      ((handle_message cli mgr now (InboundMsg.streamData m)).2.2.filter
        ProcEvent.isClosedCandle).length = 1) := by
  refine ⟨?_, ?_, ?_, ?_, ?_, ?_, ?_⟩
  · intro cli mgr now m name h1 h2 h3 h4
    unfold validate_binance_kline_data at h4
    have hss : handle_stream_message mgr now m =
        Except.error ⟨(pySplit1 name '@').1, name,
          (validate_binance_kline_data_detailed (m.data.k.getD emptyKline)).2⟩ := by
      simp only [handle_stream_message, h1]
      simp [h2, h3, h4]
    simp only [handle_message, hss]
  · intro k a b ht hT hab
    by_contra hv
    rw [Bool.not_eq_false] at hv
    obtain ⟨t, T, s, i, o, c, hi, lo, v, q, n, Vv, Qv, xv, he1, he2, he3, he4, he5, he6, he7,
      he8, he9, he10, he11, he12, he13, he14, hf1, hf2, hf3, hf4, hf5, hf6, hf7, hf8, hf9,
      hf10, hf11, hf12, hf13, hf14, hf15, hf16, hf17⟩ := validate_true_elim k hv
    rw [ht] at he1
    rw [hT] at he2
    obtain rfl : a = t := by injection he1
    obtain rfl : b = T := by injection he2
    omega
  · intro k o0 c0 h0 ho hc hh hcond
    by_contra hv
    rw [Bool.not_eq_false] at hv
    obtain ⟨t, T, s, i, o, c, hi, lo, v, q, n, Vv, Qv, xv, he1, he2, he3, he4, he5, he6, he7,
      he8, he9, he10, he11, he12, he13, he14, hf1, hf2, hf3, hf4, hf5, hf6, hf7, hf8, hf9,
      hf10, hf11, hf12, hf13, hf14, hf15, hf16, hf17⟩ := validate_true_elim k hv
    rw [ho] at he5
    rw [hc] at he6
    rw [hh] at he7
    obtain rfl : o0 = o := by injection he5
    obtain rfl : c0 = c := by injection he6
    obtain rfl : h0 = hi := by injection he7
    exact absurd hf8 (not_le.2 hcond)
  · intro k o0 c0 l0 ho hc hl hcond
    by_contra hv
    rw [Bool.not_eq_false] at hv
    obtain ⟨t, T, s, i, o, c, hi, lo, v, q, n, Vv, Qv, xv, he1, he2, he3, he4, he5, he6, he7,
      he8, he9, he10, he11, he12, he13, he14, hf1, hf2, hf3, hf4, hf5, hf6, hf7, hf8, hf9,
      hf10, hf11, hf12, hf13, hf14, hf15, hf16, hf17⟩ := validate_true_elim k hv
    rw [ho] at he5
    rw [hc] at he6
    rw [hl] at he8
    obtain rfl : o0 = o := by injection he5
    obtain rfl : c0 = c := by injection he6
    obtain rfl : l0 = lo := by injection he8
    exact absurd hf9 (not_le.2 hcond)
  · intro k v0 hv0 hcond
    by_contra hv
    rw [Bool.not_eq_false] at hv
    obtain ⟨t, T, s, i, o, c, hi, lo, v, q, n, Vv, Qv, xv, he1, he2, he3, he4, he5, he6, he7,
      he8, he9, he10, he11, he12, he13, he14, hf1, hf2, hf3, hf4, hf5, hf6, hf7, hf8, hf9,
      hf10, hf11, hf12, hf13, hf14, hf15, hf16, hf17⟩ := validate_true_elim k hv
    rw [hv0] at he9
    obtain rfl : v0 = v := by injection he9
    exact absurd hf10 (not_le.2 hcond)
  · intro k hko
    by_contra hv
    rw [Bool.not_eq_false] at hv
    obtain ⟨t, T, s, i, o, c, hi, lo, v, q, n, Vv, Qv, xv, he1, he2, he3, he4, he5, he6, he7,
      he8, he9, he10, he11, he12, he13, he14, hf1, hf2, hf3, hf4, hf5, hf6, hf7, hf8, hf9,
      hf10, hf11, hf12, hf13, hf14, hf15, hf16, hf17⟩ := validate_true_elim k hv
    rw [hko] at he5
    exact Option.noConfusion he5
  · intro cli mgr now m name kd sub h1 h2 h3 hv1 hv2 hk hval hx hsub husers
    obtain ⟨t, T, s, i, o, c, hi, lo, v, q, n, Vv, Qv, xv, he1, he2, he3, he4, he5, he6, he7,
      he8, he9, he10, he11, he12, he13, he14, hf1, hf2, hf3, hf4, hf5, hf6, hf7, hf8, hf9,
      hf10, hf11, hf12, hf13, hf14, hf15, hf16, hf17⟩ := validate_true_elim kd hval
    have hs' := he3
    have hi'' := he4
    have hsne := hf16
    have hine := hf17
    have hval2 : (validate_binance_kline_data_detailed kd).1 = true := hval
    have hstream : handle_stream_message mgr now m =
        Except.ok (handle_websocket_message mgr now m) := by
      simp only [handle_stream_message, h1]
      simp [h2, h3, hk, hval2]
    have hkm : handle_kline_message
        { mgr with
          subscriptions :=
            dinsert name (sub.update_stats now) mgr.subscriptions
          total_messages_processed := mgr.total_messages_processed + 1 } m =
        [ProcEvent.closedCandle s i
          ⟨kd.t.getD 0, kd.T.getD 0, kd.o.getD 0, kd.h.getD 0, kd.l.getD 0,
            kd.c.getD 0, kd.v.getD 0⟩] := by
      simp only [handle_kline_message, h1, hk, hs', hi'', hx]
      have hie : (sub.update_stats now).users.isEmpty = false := by
        simp [StreamSubscription.update_stats, List.isEmpty_iff, husers]
      simp [hsne, hine, dlookup_dinsert_self, hie]
    have hwm : handle_websocket_message mgr now m =
        ({ mgr with
            subscriptions := dinsert name (sub.update_stats now) mgr.subscriptions
            total_messages_processed := mgr.total_messages_processed + 1 },
          if mgr.has_data_processor then
            [ProcEvent.closedCandle s i
              ⟨kd.t.getD 0, kd.T.getD 0, kd.o.getD 0, kd.h.getD 0, kd.l.getD 0,
                kd.c.getD 0, kd.v.getD 0⟩] ++ [ProcEvent.dataProcessorCall]
          else
            [ProcEvent.closedCandle s i
              ⟨kd.t.getD 0, kd.T.getD 0, kd.o.getD 0, kd.h.getD 0, kd.l.getD 0,
                kd.c.getD 0, kd.v.getD 0⟩]) := by
      have hcond : (parse_stream_name name).valid = true ∧
          (parse_stream_name name).type = some "kline" := ⟨hv1, hv2⟩
      simp only [handle_websocket_message, h1, hsub]
      rw [if_neg h2]
      rw [if_pos hcond]
      rw [StreamSubscription.update_stats] at hkm
      simp only [StreamSubscription.update_stats, hkm]
    simp only [handle_message, hstream, hwm]
    cases hdp : mgr.has_data_processor <;>
      simp [hdp, ProcEvent.isClosedCandle]

/-- C1 witness: a frame with `high < max(open, close)` is dropped with no
event and no state change beyond the receive counter; the corresponding
well-formed closed frame on a live stream produces exactly one
closed-candle call. -/
theorem kline_frame_validation_dispatch_witness :
    handle_message {} {} 0
      (InboundMsg.streamData
        { stream := some "btcusdt@kline_1m"
          data := { k := some ⟨some 1000, some 2000, some "BTCUSDT", some "1m", some 10,
            some 11, some 10, some 9, some 5, some 50, some 7, some 3, some 30,
            some true⟩ } }) =
      ({ messages_received := 1, last_message_time := some 0 }, ({} : ManagerState),
        ([] : List ProcEvent))
  ∧ ((handle_message {}
        { subscriptions := [("btcusdt@kline_1m",
            ⟨"BTCUSDT", "1m", [1001], "btcusdt@kline_1m", 0, none, 0⟩)] } 0
        (InboundMsg.streamData
          { stream := some "btcusdt@kline_1m"
            data := { k := some ⟨some 1000, some 2000, some "BTCUSDT", some "1m", some 10,
              some 11, some 12, some 9, some 5, some 50, some 7, some 3, some 30,
              some true⟩ } })).2.2.filter ProcEvent.isClosedCandle).length = 1 := by
  constructor
  · have h := kline_frame_validation_dispatch.1 {} {} 0
      { stream := some "btcusdt@kline_1m"
        data := { k := some ⟨some 1000, some 2000, some "BTCUSDT", some "1m", some 10,
          some 11, some 10, some 9, some 5, some 50, some 7, some 3, some 30,
          some true⟩ } }
      "btcusdt@kline_1m" rfl (by decide) (by decide) (by decide)
    simpa using h
  · exact kline_frame_validation_dispatch.2.2.2.2.2.2 {}
      { subscriptions := [("btcusdt@kline_1m",
          ⟨"BTCUSDT", "1m", [1001], "btcusdt@kline_1m", 0, none, 0⟩)] } 0
      { stream := some "btcusdt@kline_1m"
        data := { k := some ⟨some 1000, some 2000, some "BTCUSDT", some "1m", some 10,
          some 11, some 12, some 9, some 5, some 50, some 7, some 3, some 30,
          some true⟩ } }
      "btcusdt@kline_1m"
      ⟨some 1000, some 2000, some "BTCUSDT", some "1m", some 10, some 11, some 12, some 9,
        some 5, some 50, some 7, some 3, some 30, some true⟩
      ⟨"BTCUSDT", "1m", [1001], "btcusdt@kline_1m", 0, none, 0⟩
      rfl (by decide) (by decide) (by decide) (by decide) rfl (by decide) rfl
      (by decide) (by decide)

/-! ### C3: registry/consumer-index agreement -/

theorem mem_setAdd_iff {α : Type} [DecidableEq α] {l : List α} {a b : α} :
    a ∈ setAdd l b ↔ a ∈ l ∨ a = b := by
  by_cases h : b ∈ l
  · simp only [setAdd, h, ite_true, if_pos]
    exact ⟨fun h2 => Or.inl h2, fun h2 => h2.elim id (fun he => he ▸ h)⟩
  · simp [setAdd, h]

theorem setAdd_ne_nil {α : Type} [DecidableEq α] (l : List α) (a : α) : setAdd l a ≠ [] := by
  by_cases h : a ∈ l
  · rw [setAdd_of_mem h]
    exact List.ne_nil_of_mem h
  · simp [setAdd, h]

theorem mem_setDiscard_iff {α : Type} [DecidableEq α] {l : List α} {a b : α} :
    a ∈ setDiscard l b ↔ a ∈ l ∧ a ≠ b := by
  simp [setDiscard, List.mem_filter]

theorem dlookup_usAdd_self (us : List (ℤ × List String)) (u : ℤ) (s : String) :
    dlookup u (usAdd us u s) = some (setAdd ((dlookup u us).getD []) s) := by
  rcases h : dlookup u us with _ | l <;> simp [usAdd, h, setAdd]

theorem dlookup_usAdd_ne (us : List (ℤ × List String)) (u : ℤ) (s : String) {u' : ℤ}
    (h : u ≠ u') : dlookup u' (usAdd us u s) = dlookup u' us := by
  rcases h2 : dlookup u us with _ | l <;> simp [usAdd, h2, dlookup_dinsert_ne _ _ h]

theorem dlookup_usDiscard_self (us : List (ℤ × List String)) (u : ℤ) (s : String) :
    dlookup u (usDiscard us u s) = some (setDiscard ((dlookup u us).getD []) s) := by
  rcases h : dlookup u us with _ | l <;> simp [usDiscard, h, setDiscard]

theorem dlookup_usDiscard_ne (us : List (ℤ × List String)) (u : ℤ) (s : String) {u' : ℤ}
    (h : u ≠ u') : dlookup u' (usDiscard us u s) = dlookup u' us := by
  rcases h2 : dlookup u us with _ | l <;> simp [usDiscard, h2, dlookup_dinsert_ne _ _ h]

theorem subMemL_dinsert_iff (subs : List (String × StreamSubscription)) (name : String)
    (sub : StreamSubscription) (c : ℤ) (n : String) :
    subMemL (dinsert name sub subs) c n ↔
      (n = name ∧ c ∈ sub.users) ∨ (n ≠ name ∧ subMemL subs c n) := by
  by_cases hn : n = name
  · subst hn
    simp [subMemL, dlookup_dinsert_self]
  · simp [subMemL, dlookup_dinsert_ne _ _ (Ne.symm hn), hn]

theorem subMemL_derase_iff (subs : List (String × StreamSubscription)) (name : String)
    (c : ℤ) (n : String) :
    subMemL (derase name subs) c n ↔ n ≠ name ∧ subMemL subs c n := by
  by_cases hn : n = name
  · subst hn
    simp [subMemL, dlookup_derase_self]
  · simp [subMemL, dlookup_derase_ne _ (Ne.symm hn), hn]

theorem usMemL_usAdd_iff (us : List (ℤ × List String)) (u : ℤ) (s : String) (c : ℤ)
    (n : String) :
    usMemL (usAdd us u s) c n ↔
      (c = u ∧ (n = s ∨ usMemL us u n)) ∨ (c ≠ u ∧ usMemL us c n) := by
  by_cases hc : c = u
  · subst hc
    simp only [usMemL, dlookup_usAdd_self, Option.some.injEq]
    constructor
    · rintro ⟨l, hl, hn⟩
      subst hl
      rcases mem_setAdd_iff.1 hn with h2 | h2
      · rcases h3 : dlookup c us with _ | l0
        · rw [h3] at h2
          simp at h2
        · rw [h3] at h2
          exact Or.inl ⟨by simp, Or.inr ⟨l0, rfl, by simpa using h2⟩⟩
      · exact Or.inl ⟨by simp, Or.inl h2⟩
    · rintro (⟨-, (rfl | ⟨l, hl, hn⟩)⟩ | ⟨hne, -⟩)
      · exact ⟨_, rfl, mem_setAdd_self _ _⟩
      · refine ⟨_, rfl, mem_setAdd_iff.2 (Or.inl ?_)⟩
        rw [hl]
        exact hn
      · exact absurd rfl hne
  · simp [usMemL, dlookup_usAdd_ne _ _ _ (Ne.symm hc), hc]

theorem usMemL_usDiscard_iff (us : List (ℤ × List String)) (u : ℤ) (s : String) (c : ℤ)
    (n : String) :
    usMemL (usDiscard us u s) c n ↔
      (c = u ∧ n ≠ s ∧ usMemL us u n) ∨ (c ≠ u ∧ usMemL us c n) := by
  by_cases hc : c = u
  · subst hc
    simp only [usMemL, dlookup_usDiscard_self, Option.some.injEq]
    constructor
    · rintro ⟨l, hl, hn⟩
      subst hl
      obtain ⟨h2, h3⟩ := mem_setDiscard_iff.1 hn
      rcases h4 : dlookup c us with _ | l0
      · rw [h4] at h2
        simp at h2
      · rw [h4] at h2
        exact Or.inl ⟨by simp, h3, ⟨l0, rfl, by simpa using h2⟩⟩
    · rintro (⟨-, hns, l, hl, hn⟩ | ⟨hne, -⟩)
      · refine ⟨_, rfl, mem_setDiscard_iff.2 ⟨?_, hns⟩⟩
        rw [hl]
        exact hn
      · exact absurd rfl hne
  · simp [usMemL, dlookup_usDiscard_ne _ _ _ (Ne.symm hc), hc]

theorem usMemL_derase_iff (us : List (ℤ × List String)) (u : ℤ) (c : ℤ) (n : String) :
    usMemL (derase u us) c n ↔ c ≠ u ∧ usMemL us c n := by
  by_cases hc : c = u
  · subst hc
    simp [usMemL, dlookup_derase_self]
  · simp [usMemL, dlookup_derase_ne _ (Ne.symm hc), hc]

theorem subMemL_of_lookup {subs : List (String × StreamSubscription)} {name : String}
    {sub : StreamSubscription} (hl : dlookup name subs = some sub) (c : ℤ) :
    subMemL subs c name ↔ c ∈ sub.users := by
  simp [subMemL, hl]

theorem subMemL_of_lookup_none {subs : List (String × StreamSubscription)} {name : String}
    (hl : dlookup name subs = none) (c : ℤ) : ¬ subMemL subs c name := by
  simp [subMemL, hl]

/-- Adding consumer `u` to stream `name` in both maps preserves the
invariant, provided the new subscription's user set is the old membership
plus `u`. -/
theorem inv_add (subs : List (String × StreamSubscription)) (us : List (ℤ × List String))
    (name : String) (u : ℤ) (sub' : StreamSubscription)
    (h1 : ∀ n s, dlookup n subs = some s → s.users ≠ [])
    (h2 : ∀ c n, subMemL subs c n ↔ usMemL us c n)
    (husers : ∀ c, c ∈ sub'.users ↔ (c = u ∨ subMemL subs c name))
    (hne : sub'.users ≠ []) :
    (∀ n s, dlookup n (dinsert name sub' subs) = some s → s.users ≠ []) ∧
    (∀ c n, subMemL (dinsert name sub' subs) c n ↔ usMemL (usAdd us u name) c n) := by
  constructor
  · intro n s hs
    by_cases hn : n = name
    · subst hn
      rw [dlookup_dinsert_self] at hs
      cases hs
      exact hne
    · rw [dlookup_dinsert_ne _ _ (Ne.symm hn)] at hs
      exact h1 n s hs
  · intro c n
    have hcn := h2 c n
    have hun := h2 u n
    have hcname := h2 c name
    have huname := h2 u name
    rw [subMemL_dinsert_iff, usMemL_usAdd_iff, husers c]
    by_cases hc : c = u <;> by_cases hn : n = name <;> subst_vars <;> tauto

/-- Removing consumer `u` from stream `name` in both maps preserves the
invariant when other consumers remain. -/
theorem inv_remove_keep (subs : List (String × StreamSubscription))
    (us : List (ℤ × List String)) (name : String) (u : ℤ) (sub : StreamSubscription)
    (hl : dlookup name subs = some sub)
    (h1 : ∀ n s, dlookup n subs = some s → s.users ≠ [])
    (h2 : ∀ c n, subMemL subs c n ↔ usMemL us c n)
    (hne : setDiscard sub.users u ≠ []) :
    (∀ n s, dlookup n (dinsert name { sub with users := setDiscard sub.users u } subs) =
      some s → s.users ≠ []) ∧
    (∀ c n, subMemL (dinsert name { sub with users := setDiscard sub.users u } subs) c n ↔
      usMemL (usDiscard us u name) c n) := by
  constructor
  · intro n s hs
    by_cases hn : n = name
    · subst hn
      rw [dlookup_dinsert_self] at hs
      cases hs
      exact hne
    · rw [dlookup_dinsert_ne _ _ (Ne.symm hn)] at hs
      exact h1 n s hs
  · intro c n
    have hcn := h2 c n
    have hun := h2 u n
    have hcname := h2 c name
    have hmemu := subMemL_of_lookup hl u
    have hmemc := subMemL_of_lookup hl c
    rw [subMemL_dinsert_iff, usMemL_usDiscard_iff]
    simp only [mem_setDiscard_iff]
    by_cases hc : c = u <;> by_cases hn : n = name <;> subst_vars <;> tauto

/-- Deleting stream `name` after removing its last consumer `u` preserves the
invariant. -/
theorem inv_remove_del (subs : List (String × StreamSubscription))
    (us : List (ℤ × List String)) (name : String) (u : ℤ) (sub : StreamSubscription)
    (hl : dlookup name subs = some sub)
    (h1 : ∀ n s, dlookup n subs = some s → s.users ≠ [])
    (h2 : ∀ c n, subMemL subs c n ↔ usMemL us c n)
    (hemp : setDiscard sub.users u = []) :
    (∀ n s, dlookup n
        (derase name (dinsert name { sub with users := setDiscard sub.users u } subs)) =
      some s → s.users ≠ []) ∧
    (∀ c n,
      subMemL (derase name (dinsert name { sub with users := setDiscard sub.users u } subs))
        c n ↔ usMemL (usDiscard us u name) c n) := by
  have hall : ∀ c ∈ sub.users, c = u := by
    intro c hc
    by_contra hcu
    exact absurd (mem_setDiscard_iff.2 ⟨hc, hcu⟩) (by simp [hemp])
  constructor
  · intro n s hs
    by_cases hn : n = name
    · subst hn
      rw [dlookup_derase_self] at hs
      exact Option.noConfusion hs
    · rw [dlookup_derase_ne _ (Ne.symm hn), dlookup_dinsert_ne _ _ (Ne.symm hn)] at hs
      exact h1 n s hs
  · intro c n
    have hcn := h2 c n
    have hun := h2 u n
    have hcname := h2 c name
    have hmemu := subMemL_of_lookup hl u
    have hmemc := subMemL_of_lookup hl c
    have hallc : c ∈ sub.users → c = u := hall c
    rw [subMemL_derase_iff, subMemL_dinsert_iff, usMemL_usDiscard_iff]
    by_cases hc : c = u <;> by_cases hn : n = name <;> subst_vars <;> tauto

/-- The subscribe loop body preserves the registry invariant. -/
theorem subscribeStep_inv (u : ℤ) (sym : String) (now : ℕ) (tf : String)
    (st : SubLoopState) (h : RegistryInv st.mgr) :
    RegistryInv (subscribeStep u sym now st tf).mgr := by
  by_cases hv : (validate_timeframe tf).1
  · rcases hl : dlookup (get_kline_stream_name sym tf) st.mgr.subscriptions with _ | sub
    · simp only [subscribeStep, hv, hl, not_true, if_neg, ite_false, not_false_eq_true]
      have hres := inv_add st.mgr.subscriptions st.mgr.user_streams
        (get_kline_stream_name sym tf) u
        (StreamSubscription.make sym tf [u] now) h.1 h.2
        (by
          intro c
          simp [StreamSubscription.make, subMemL_of_lookup_none hl])
        (by simp [StreamSubscription.make])
      exact ⟨hres.1, hres.2⟩
    · simp only [subscribeStep, hv, hl, not_true, if_neg, ite_false, not_false_eq_true]
      have hres := inv_add st.mgr.subscriptions st.mgr.user_streams
        (get_kline_stream_name sym tf) u (sub.add_user u) h.1 h.2
        (by
          intro c
          rw [StreamSubscription.add_user]
          show c ∈ setAdd sub.users u ↔ _
          rw [mem_setAdd_iff, subMemL_of_lookup hl]
          tauto)
        (by
          rw [StreamSubscription.add_user]
          exact setAdd_ne_nil _ _)
      exact ⟨hres.1, hres.2⟩
  · simpa [subscribeStep, hv] using h

/-- The unsubscribe loop body preserves the registry invariant. -/
theorem unsubscribeStep_inv (u : ℤ) (sym : String) (tf : String) (st : UnsubLoopState)
    (h : RegistryInv st.mgr) : RegistryInv (unsubscribeStep u sym st tf).mgr := by
  rcases hl : dlookup (get_kline_stream_name sym tf) st.mgr.subscriptions with _ | sub
  · simpa [unsubscribeStep, hl] using h
  · by_cases hemp : (setDiscard sub.users u).isEmpty
    · simp only [unsubscribeStep, hl, StreamSubscription.remove_user, hemp, ite_true, if_true]
      have hres := inv_remove_del st.mgr.subscriptions st.mgr.user_streams
        (get_kline_stream_name sym tf) u sub hl h.1 h.2 (by simpa [List.isEmpty_iff] using hemp)
      exact ⟨hres.1, hres.2⟩
    · simp only [unsubscribeStep, hl, StreamSubscription.remove_user, hemp,
        Bool.false_eq_true, ite_false, if_false]
      have hres := inv_remove_keep st.mgr.subscriptions st.mgr.user_streams
        (get_kline_stream_name sym tf) u sub hl h.1 h.2
        (by simpa [List.isEmpty_iff] using hemp)
      exact ⟨hres.1, hres.2⟩

/-- The trailing empty-entry cleanup preserves the registry invariant. -/
theorem cleanupUserStreams_inv (mgr : ManagerState) (u : ℤ) (h : RegistryInv mgr) :
    RegistryInv (cleanupUserStreams mgr u) := by
  rcases hu : dlookup u mgr.user_streams with _ | l
  · simpa [cleanupUserStreams, hu] using h
  · rcases l with _ | ⟨s0, l0⟩
    · simp only [cleanupUserStreams, hu]
      refine ⟨h.1, ?_⟩
      intro c n
      have hiff := h.2 c n
      have hu2 : ¬ usMemL mgr.user_streams u n := by simp [usMemL, hu]
      have hiffu := h.2 u n
      rw [usMemL_derase_iff]
      by_cases hc : c = u <;> subst_vars <;> tauto
    · simpa [cleanupUserStreams, hu] using h

theorem setDiscard_idem {α : Type} [DecidableEq α] (l : List α) (a : α) :
    setDiscard (setDiscard l a) a = setDiscard l a := by
  simp [setDiscard, List.filter_filter]

theorem removeUserLookup_idem (u : ℤ) (o : Option StreamSubscription) :
    removeUserLookup u (removeUserLookup u o) = removeUserLookup u o := by
  rcases o with _ | sub
  · rfl
  · simp only [removeUserLookup]
    by_cases hemp : (setDiscard sub.users u).isEmpty
    · simp [hemp, removeUserLookup]
    · simp [hemp, removeUserLookup, setDiscard_idem]

theorem unsubAllStep_us (u : ℤ) (st : ManagerState × List String) (name : String) :
    (unsubAllStep u st name).1.user_streams = st.1.user_streams := by
  rcases hl : dlookup name st.1.subscriptions with _ | sub
  · simp [unsubAllStep, hl]
  · by_cases hemp : (setDiscard sub.users u).isEmpty <;>
      simp [unsubAllStep, hl, StreamSubscription.remove_user, hemp]

theorem unsubAllStep_lookup (u : ℤ) (st : ManagerState × List String) (m n : String) :
    dlookup n (unsubAllStep u st m).1.subscriptions =
      if n = m then removeUserLookup u (dlookup n st.1.subscriptions)
      else dlookup n st.1.subscriptions := by
  rcases hl : dlookup m st.1.subscriptions with _ | sub
  · simp only [unsubAllStep, hl]
    by_cases hn : n = m
    · subst hn
      simp [hl, removeUserLookup]
    · simp [hn]
  · by_cases hemp : (setDiscard sub.users u).isEmpty
    · simp only [unsubAllStep, hl, StreamSubscription.remove_user, hemp, ite_true, if_true]
      by_cases hn : n = m
      · subst hn
        rw [dlookup_derase_self, hl]
        simp [removeUserLookup, hemp]
      · rw [dlookup_derase_ne _ (Ne.symm hn)]
        simp [hn]
    · simp only [unsubAllStep, hl, StreamSubscription.remove_user, hemp,
        Bool.false_eq_true, ite_false, if_false]
      by_cases hn : n = m
      · subst hn
        rw [dlookup_dinsert_self, hl]
        simp [removeUserLookup, hemp]
      · rw [dlookup_dinsert_ne _ _ (Ne.symm hn)]
        simp [hn]

theorem unsubAll_fold_lookup (u : ℤ) :
    ∀ (names : List String) (st : ManagerState × List String) (n : String),
      dlookup n (names.foldl (unsubAllStep u) st).1.subscriptions =
        if n ∈ names then removeUserLookup u (dlookup n st.1.subscriptions)
        else dlookup n st.1.subscriptions := by
  intro names
  induction names with
  | nil => simp
  | cons m rest ih =>
    intro st n
    rw [List.foldl_cons, ih, unsubAllStep_lookup]
    by_cases hn : n = m <;> by_cases hr : n ∈ rest
    · subst hn
      simp [hr, removeUserLookup_idem]
    · subst hn
      simp [hr]
    · simp [hn, hr]
    · simp [hn, hr, List.mem_cons]

theorem unsubAll_fold_us (u : ℤ) :
    ∀ (names : List String) (st : ManagerState × List String),
      ((names.foldl (unsubAllStep u) st).1).user_streams = st.1.user_streams := by
  intro names
  induction names with
  | nil => intro st; rfl
  | cons m rest ih =>
    intro st
    rw [List.foldl_cons, ih, unsubAllStep_us]

/-- `unsubscribe_user_from_all` preserves the registry invariant. -/
theorem unsubAll_inv (mgr : ManagerState) (u : ℤ) (h : RegistryInv mgr) :
    RegistryInv (unsubscribe_user_from_all_registry mgr u).1 := by
  rcases hu : dlookup u mgr.user_streams with _ | l0
  · simpa [unsubscribe_user_from_all_registry, hu] using h
  · simp only [unsubscribe_user_from_all_registry, hu]
    constructor
    · intro n s hs
      simp only [] at hs
      rw [unsubAll_fold_lookup] at hs
      by_cases hn : n ∈ l0
      · rw [if_pos hn] at hs
        rcases ho : dlookup n mgr.subscriptions with _ | sub
        · rw [ho] at hs
          exact Option.noConfusion hs
        · rw [ho] at hs
          simp only [removeUserLookup] at hs
          by_cases hemp : (setDiscard sub.users u).isEmpty
          · rw [if_pos hemp] at hs
            exact Option.noConfusion hs
          · rw [if_neg hemp] at hs
            cases hs
            simpa [List.isEmpty_iff] using hemp
      · rw [if_neg hn] at hs
        exact h.1 n s hs
    · intro c n
      show subMemL (l0.foldl (unsubAllStep u) (mgr, [])).1.subscriptions c n ↔
        usMemL (derase u (l0.foldl (unsubAllStep u) (mgr, [])).1.user_streams) c n
      rw [unsubAll_fold_us]
      rw [usMemL_derase_iff]
      have hsub : subMemL (l0.foldl (unsubAllStep u) (mgr, [])).1.subscriptions c n ↔
          (if n ∈ l0 then
            ∃ s, removeUserLookup u (dlookup n mgr.subscriptions) = some s ∧ c ∈ s.users
          else subMemL mgr.subscriptions c n) := by
        unfold subMemL
        rw [unsubAll_fold_lookup]
        by_cases hn : n ∈ l0 <;> simp [hn]
      rw [hsub]
      have hiff := h.2 c n
      have hiffu := h.2 u n
      have husm : usMemL mgr.user_streams u n ↔ n ∈ l0 := by simp [usMemL, hu]
      by_cases hn : n ∈ l0
      · rw [if_pos hn]
        rcases ho : dlookup n mgr.subscriptions with _ | sub
        · have hns : ¬ subMemL mgr.subscriptions c n := subMemL_of_lookup_none ho c
          simp only [removeUserLookup]
          constructor
          · rintro ⟨s, hs, -⟩
            exact Option.noConfusion hs
          · rintro ⟨hcu, husm2⟩
            exact absurd (hiff.2 husm2) hns
        · have hmc := subMemL_of_lookup ho c
          simp only [removeUserLookup]
          by_cases hemp : (setDiscard sub.users u).isEmpty
          · rw [if_pos hemp]
            have hall : ∀ a ∈ sub.users, a = u := by
              intro a ha
              by_contra hau
              have hemp2 : setDiscard sub.users u = [] := by
                simpa [List.isEmpty_iff] using hemp
              exact absurd (mem_setDiscard_iff.2 ⟨ha, hau⟩) (by simp [hemp2])
            constructor
            · rintro ⟨s, hs, -⟩
              exact Option.noConfusion hs
            · rintro ⟨hcu, husm2⟩
              exact absurd (hall c (hmc.1 (hiff.2 husm2))) hcu
          · rw [if_neg hemp]
            constructor
            · rintro ⟨s, hs, hcs⟩
              cases hs
              obtain ⟨hcu2, hcne⟩ := mem_setDiscard_iff.1 hcs
              exact ⟨hcne, hiff.1 (hmc.2 hcu2)⟩
            · rintro ⟨hcu, husm2⟩
              exact ⟨_, rfl, mem_setDiscard_iff.2 ⟨hmc.1 (hiff.2 husm2), hcu⟩⟩
      · rw [if_neg hn]
        constructor
        · intro hsm
          refine ⟨?_, hiff.1 hsm⟩
          rintro rfl
          exact hn (husm.1 (hiffu.1 hsm))
        · rintro ⟨-, husm2⟩
          exact hiff.2 husm2

/-- A fold preserves any invariant its step preserves. -/
theorem foldl_inv {σ α : Type} (P : σ → Prop) (f : σ → α → σ)
    (hstep : ∀ s a, P s → P (f s a)) : ∀ (l : List α) (s : σ), P s → P (l.foldl f s) := by
  intro l
  induction l with
  | nil => intro s hs; exact hs
  | cons a rest ih =>
    intro s hs
    rw [List.foldl_cons]
    exact ih _ (hstep s a hs)

/-- Every consumer-facing registry operation preserves the invariant. -/
theorem applyRegistryOp_inv (mgr : ManagerState) (op : RegistryOp) (h : RegistryInv mgr) :
    RegistryInv (applyRegistryOp mgr op) := by
  rcases op with ⟨u, sym, tfs, now⟩ | ⟨u, sym, tfs⟩ | u
  · by_cases hsym : (validate_trading_pair_symbol sym).1
    · simp only [applyRegistryOp, subscribe_user_to_pair_registry, hsym, not_true, if_neg,
        ite_false, not_false_eq_true]
      exact foldl_inv (fun st => RegistryInv st.mgr) (subscribeStep u sym now)
        (fun st tf hst => subscribeStep_inv u sym now tf st hst) tfs { mgr := mgr } h
    · simpa [applyRegistryOp, subscribe_user_to_pair_registry, hsym] using h
  · simp only [applyRegistryOp, unsubscribe_user_from_pair_registry]
    exact cleanupUserStreams_inv _ u
      (foldl_inv (fun st => RegistryInv st.mgr) (unsubscribeStep u sym)
        (fun st tf hst => unsubscribeStep_inv u sym tf st hst) tfs { mgr := mgr } h)
  · exact unsubAll_inv mgr u h

/-- C3: after any sequence of subscribe/unsubscribe/unsubscribe-all
operations from the empty manager state, a consumer is in a subscription's
user set exactly when the stream is in the consumer's index, and every
stored subscription has a non-empty user set. -/
theorem registry_consumer_index_agreement (ops : List RegistryOp) :
    RegistryInv (runRegistryOps {} ops) := by
  have hinit : RegistryInv ({} : ManagerState) := by
    constructor
    · intro n sub hs
      exact Option.noConfusion hs
    · intro c n
      simp [subMemL, usMemL, dlookup]
  exact foldl_inv RegistryInv applyRegistryOp
    (fun s a hs => applyRegistryOp_inv s a hs) ops {} hinit

/-! ### C5: upstream subscribe failure is not rolled back (code bug) -/

/-- C5 (failing input): consumer 1001 subscribes to BTCUSDT `["1m"]` on a
connected client whose upstream SUBSCRIBE send fails. `subscribe_to_multiple_streams`
swallows the send exception and reports the stream as `false`, so the
manager's `except` rollback branch never runs: the newly created
subscription stays in the registry, the user index keeps the stream, and
the returned map still says `"1m" ↦ true` — contradicting the specified
rollback. The translated rollback branch (`subscribeRollback`, dead code)
would have removed the subscription and flipped the entry to `false`. -/
theorem subscribe_upstream_failure_keeps_registry :
    ((subscribe_to_multiple_streams { state := ConnectionState.connected }
        ["btcusdt@kline_1m"] false).2.2 = [("btcusdt@kline_1m", false)]
  ∧ (subscribe_user_to_pair { cli := { state := ConnectionState.connected } }
        1001 "BTCUSDT" ["1m"] 0 false).2.1 = []
  ∧ dlookup "btcusdt@kline_1m"
      (subscribe_user_to_pair { cli := { state := ConnectionState.connected } }
        1001 "BTCUSDT" ["1m"] 0 false).1.mgr.subscriptions =
      some ⟨"BTCUSDT", "1m", [1001], "btcusdt@kline_1m", 0, none, 0⟩
  ∧ dlookup "1m"
      (subscribe_user_to_pair { cli := { state := ConnectionState.connected } }
        1001 "BTCUSDT" ["1m"] 0 false).2.2 = some true)
  ∧ (dlookup "btcusdt@kline_1m"
      (subscribeRollback
        (subscribe_user_to_pair { cli := { state := ConnectionState.connected } }
          1001 "BTCUSDT" ["1m"] 0 false).1.mgr
        1001 "BTCUSDT" ["1m"] ["btcusdt@kline_1m"]
        (subscribe_user_to_pair { cli := { state := ConnectionState.connected } }
          1001 "BTCUSDT" ["1m"] 0 false).2.2).1.subscriptions = none
  ∧ dlookup "1m"
      (subscribeRollback
        (subscribe_user_to_pair { cli := { state := ConnectionState.connected } }
          1001 "BTCUSDT" ["1m"] 0 false).1.mgr
        1001 "BTCUSDT" ["1m"] ["btcusdt@kline_1m"]
        (subscribe_user_to_pair { cli := { state := ConnectionState.connected } }
          1001 "BTCUSDT" ["1m"] 0 false).2.2).2 = some false) := by
  decide

/-! ### Sanity checks on concrete inputs -/

example : (validate_trading_pair_symbol "BTCUSDT").1 = true := by decide
example : (validate_trading_pair_symbol "AB").1 = false := by decide
example : (validate_timeframe "1m").1 = true := by decide
example : (validate_timeframe "7m").1 = false := by decide
example : validate_binance_kline_data emptyKline = false := by decide
example :
    validate_binance_kline_data
      ⟨some 1000, some 2000, some "BTCUSDT", some "1m", some 10, some 11, some 12,
       some 9, some 5, some 50, some 7, some 3, some 30, some true⟩ = true := by decide
example :
    validate_binance_kline_data
      ⟨some 1000, some 2000, some "BTCUSDT", some "1m", some 10, some 11, some 10,
       some 9, some 5, some 50, some 7, some 3, some 30, some true⟩ = false := by decide

example : get_kline_stream_name "BTCUSDT" "1m" = "btcusdt@kline_1m" := by decide
example : parse_stream_name "btcusdt@kline_1m" =
    { valid := true, type := some "kline", symbol := some "BTCUSDT",
      timeframe := some "1m" } := by decide
example : parse_stream_name "btcusdt@ticker" =
    { valid := true, type := some "ticker", symbol := some "BTCUSDT" } := by decide
example : parse_stream_name "nonsense" = { valid := false } := by decide

example :
    jsonRender (subscribe_message ["btcusdt@kline_1m"] 17) =
      "\x7b\"method\": \"SUBSCRIBE\", \"params\": [\"btcusdt@kline_1m\"], \"id\": 17\x7d" := by
  decide

end CryptoBot
